import Mathlib

/-!
# housealmanac: estimation of sunrise and sunset from a monthly table

A shallow embedding of `housealmanac.c`.  The C program keeps one global
table (`AlmanacDb`) and one flag (`AlmanacIsConfigured`); here both are fields
of an explicit state that each operation receives and returns.

Conventions of the embedding:

* the `char` fields of `DayTimePoint` and the `int` variables are `Int`.  The
  `int` arithmetic of the estimator is done on values of `char` range, far
  from the limits of a 32 bit `int`, so no wrap-around is written there.
  A store of an `int` into a `char` field is written `toChar`;
* C's `/` and `%` on `int` truncate toward zero: `Int.tdiv` and `Int.tmod`;
* a C string is the `List Char` of its characters before the terminating NUL;
* an array of the struct is a function on `Fin n`; an access with an `int`
  index outside `0 .. n-1` has no defined result and yields `none`.
-/

namespace HouseAlmanac

/-! ## Data model -/

/-- The four `char` fields of the C struct `DayTimePoint`. -/
structure DayTimePoint where
  month : Int
  day : Int
  hour : Int
  minute : Int
deriving DecidableEq, Repr

/-- The C struct `AlmanacData`: `sunrises[12]`, `sunsets[12]` and `dst[2]`. -/
structure AlmanacData where
  sunrises : Fin 12 → DayTimePoint
  sunsets : Fin 12 → DayTimePoint
  dst : Fin 2 → DayTimePoint

/-- The two globals of the program: `AlmanacDb` and `AlmanacIsConfigured`. -/
structure AlmanacState where
  AlmanacDb : AlmanacData
  AlmanacIsConfigured : Bool

/-- The fields of the C library's `struct tm`. -/
structure Tm where
  tm_sec : Int
  tm_min : Int
  tm_hour : Int
  tm_mday : Int
  tm_mon : Int
  tm_year : Int
  tm_wday : Int
  tm_yday : Int
  tm_isdst : Int
deriving DecidableEq, Repr

/-- The table `DaysPerMonth[12]` of the source. -/
def DaysPerMonth : Fin 12 → Int :=
  ![31, 28, 31, 30, 31, 30, 31, 31, 30, 31, 30, 31]

/-- The all-zero point of a static C object nobody has written yet. -/
def DayTimePoint.zero : DayTimePoint := ⟨0, 0, 0, 0⟩

/-- The state at process start: statics are zero-initialised. -/
def AlmanacState.initial : AlmanacState :=
  { AlmanacDb := { sunrises := fun _ => DayTimePoint.zero,
                   sunsets := fun _ => DayTimePoint.zero,
                   dst := fun _ => DayTimePoint.zero },
    AlmanacIsConfigured := false }

/-- The access `array[i]` with an `int` index: defined inside the bounds only. -/
def index {n : Nat} {α : Type} (array : Fin n → α) (i : Int) : Option α :=
  if h : 0 ≤ i ∧ i < n then some (array ⟨i.toNat, by omega⟩) else none

/-! ## The crossing detector and the estimator -/

/-- The function `housealmanac_before` of the source (result 1 is `true`). -/
def housealmanac_before (dst : DayTimePoint) (month day : Int) : Bool :=
  let dstmonth := dst.month - 1
  if month < dstmonth then true
  else if month > dstmonth then false
  else if day < dst.day then true
  else false

/-- The four month variables of `housealmanac_estimate`: calendar months
`m1c`, `m2c` (0 to 11) and months relative to this year `m1r`, `m2r`
(-1 to 12). -/
structure Bracket where
  m1c : Int
  m2c : Int
  m1r : Int
  m2r : Int
deriving DecidableEq, Repr

/-- The choice of the two anchors (source lines 186 to 204), for a day
other than 15. -/
def bracket (month day : Int) : Bracket :=
  if day > 15 then
    if month ≥ 11 then { m1c := month, m1r := month, m2c := 0, m2r := 12 }
    else { m1c := month, m1r := month, m2c := month + 1, m2r := month + 1 }
  else
    if month > 0 then { m1c := month - 1, m1r := month - 1, m2c := month, m2r := month }
    else { m1c := 11, m1r := -1, m2c := month, m2r := month }

/-- The test of line 211: the two anchors are on different sides of the
marker. -/
def crosses (dst : DayTimePoint) (m1r m2r : Int) : Bool :=
  housealmanac_before dst m1r 15 != housealmanac_before dst m2r 15

/-- The loop of lines 210 to 223 over the marker indices still to visit,
on the pair `(time1, time2)`; it stops at the first crossing marker. -/
def dstLoop (dst : Fin 2 → DayTimePoint) (m1r m2r month day : Int) :
    List (Fin 2) → Int × Int → Int × Int
  | [], times => times
  | i :: rest, (time1, time2) =>
    if crosses (dst i) m1r m2r then
      if housealmanac_before (dst i) month day then
        (time1, time2 + (if i = 0 then -60 else 60))
      else
        (time1 + (if i = 0 then 60 else -60), time2)
    else dstLoop dst m1r m2r month day rest (time1, time2)

/-- The linear regression of lines 226 to 228. -/
def regression (m1r month day time1 time2 : Int) : Int :=
  let a := time2 - time1
  let b := (30 * time1) - (a * ((m1r * 30) + 15))
  ((a * ((month * 30) + (day - 1))) + b).tdiv 30

/-- The function `housealmanac_estimate` of the source, with the global
`AlmanacDb.dst` as first argument; the result is the updated `*now`. -/
def housealmanac_estimate (dst : Fin 2 → DayTimePoint)
    (monthly : Fin 12 → DayTimePoint) (now : Tm) : Option Tm :=
  let month := now.tm_mon
  let day := now.tm_mday
  let now := { now with tm_sec := 0 }
  if day = 15 then
    (index monthly month).map fun e =>
      { now with tm_hour := e.hour, tm_min := e.minute }
  else
    let b := bracket month day
    (index monthly b.m1c).bind fun e1 =>
    (index monthly b.m2c).map fun e2 =>
      let time1 := (e1.hour * 60) + e1.minute
      let time2 := (e2.hour * 60) + e2.minute
      let times := dstLoop dst b.m1r b.m2r month day [0, 1] (time1, time2)
      let result := regression b.m1r month day times.1 times.2
      { now with tm_hour := result.tdiv 60, tm_min := result.tmod 60 }

/-! ## The configuration and the table builder

The configuration store (`houseconfig_*`) is an external library.  Its answer
to the three lookups of `housealmanac_refresh` is the input here: each array
is absent or is a list of elements, and an element is a string or something
else (`none`), for which `houseconfig_string` returns a null pointer. -/

/-- A configuration as `housealmanac_refresh` sees it: the arrays
`.almanac.sunrise`, `.almanac.sunset` and `.almanac.dst`. -/
structure Config where
  sunrise : Option (List (Option (List Char)))
  sunset : Option (List (Option (List Char)))
  dst : Option (List (Option (List Char)))

/-- The call `houseconfig_array_length (array)`. -/
def houseconfig_array_length (array : List (Option (List Char))) : Int :=
  (array.length : Int)

/-- The call `houseconfig_string (array, "[i]")`: the string at index `i`,
or null when there is no such element or it is not a string. -/
def houseconfig_string (array : List (Option (List Char))) (i : Nat) :
    Option (List Char) :=
  (array.get? i).join

/-- The C library's `isspace` in the C locale. -/
def isspace (c : Char) : Bool :=
  c.toNat = 32 || (9 ≤ c.toNat && c.toNat ≤ 13)

/-- The C library's `isdigit`. -/
def isdigit (c : Char) : Bool :=
  48 ≤ c.toNat && c.toNat ≤ 57

/-- The digit loop of `atoi`: accumulates the leading decimal digits. -/
def atoiDigits : List Char → Int → Int
  | [], acc => acc
  | c :: cs, acc =>
    if isdigit c then atoiDigits cs (acc * 10 + ((c.toNat : Int) - 48)) else acc

/-- The C library's `atoi`: skips white space, reads an optional sign and
the decimal digits that follow; 0 when there is no digit.  (A number outside
the range of `int` is undefined in C and not modelled.) -/
def atoi (s : List Char) : Int :=
  match s.dropWhile isspace with
  | [] => 0
  | c :: cs =>
    if c = '-' then - atoiDigits cs 0
    else if c = '+' then atoiDigits cs 0
    else atoiDigits (c :: cs) 0

/-- The C library's `strchr`: the suffix of the string that starts at the
first occurrence of `c`, or null. -/
def strchr : List Char → Char → Option (List Char)
  | [], _ => none
  | x :: xs, c => if x = c then some (x :: xs) else strchr xs c

/-- The store of an `int` into a `char` field, for a signed `char` of 8 bits
(the values 0 to 127 are stored unchanged whatever the signedness). -/
def toChar (n : Int) : Int :=
  (n + 128) % 256 - 128

/-- The body of the loop of lines 114 to 128 for a non-null `dstdate`. -/
def parseDst (dstdate : List Char) (old : DayTimePoint) : DayTimePoint :=
  let p := { old with month := toChar (atoi dstdate) }
  let p := { p with day := 15 }
  let p := match strchr dstdate '/' with
    | some slash => { p with day := toChar (atoi (slash.drop 1)) }
    | none => p
  { p with hour := 2, minute := 0 }

/-- The body of the loops of lines 130 to 144 and 146 to 160 for a non-null
`daytime` at index `i`. -/
def parseDaytime (i : Nat) (daytime : List Char) (old : DayTimePoint) :
    DayTimePoint :=
  let p := { old with month := toChar ((i : Int) + 1) }
  let p := { p with day := 15 }
  let p := { p with hour := toChar (atoi daytime) }
  let p := { p with minute := 0 }
  match strchr daytime ':' with
  | some column => { p with minute := toChar (atoi (column.drop 1)) }
  | none => p

/-- The body of one `for` loop of `housealmanac_refresh` at index `i`: the
slot is rewritten when `houseconfig_string` gives a string and left alone
when it gives null. -/
def fillSlot {n : Nat} (array : List (Option (List Char)))
    (parse : Nat → List Char → DayTimePoint → DayTimePoint)
    (table : Fin n → DayTimePoint) (i : Fin n) : Fin n → DayTimePoint :=
  match houseconfig_string array i.val with
  | some str => Function.update table i (parse i.val str (table i))
  | none => table

/-- One `for (i = 0; i < n; ++i)` loop of `housealmanac_refresh` over a table
of `n` slots. -/
def fillTable {n : Nat} (array : List (Option (List Char)))
    (parse : Nat → List Char → DayTimePoint → DayTimePoint)
    (table : Fin n → DayTimePoint) : Fin n → DayTimePoint :=
  (List.finRange n).foldl (fillSlot array parse) table

/-- The function `housealmanac_refresh` of the source: the returned string
is the error (`none` is the null pointer of success), with the new state. -/
def housealmanac_refresh (cfg : Config) (s : AlmanacState) :
    Option String × AlmanacState :=
  match cfg.sunrise with
  | none => (some "cannot find sunrises array", s)
  | some sunrises =>
    if houseconfig_array_length sunrises ≠ 12 then
      (some "not a valid sunrises array", s)
    else
      match cfg.sunset with
      | none => (some "cannot find sunsets array", s)
      | some sunsets =>
        if houseconfig_array_length sunrises ≠ 12 then
          (some "not a valid sunrises array", s)
        else
          match cfg.dst with
          | none => (some "cannot find dst array", s)
          | some dst =>
            if houseconfig_array_length dst ≠ 2 then
              (some "not a valid dst array", s)
            else
              let db := s.AlmanacDb
              let db := { db with dst := fillTable dst (fun _ => parseDst) db.dst }
              let db := { db with sunsets := fillTable sunsets parseDaytime db.sunsets }
              let db := { db with sunrises := fillTable sunrises parseDaytime db.sunrises }
              (none, { AlmanacDb := db, AlmanacIsConfigured := true })

/-! ## The queries

The handlers read the clock and the time zone through the C library and take
the host names and the JSON writer from other House libraries.  What those
give is the input `Env`; the JSON document a handler builds is kept as the
data it is built from, and the export to text is taken to succeed. -/

/-- What the C library and the other libraries give to one request: the
value of `time(0)` (the same at each call within the request), the functions
`localtime` and `mktime` (the timestamp and the normalised `struct tm` it
leaves behind), `houselog_host()`, `houseportal_server()` and the string of
`housealmanac_timezone()`. -/
structure Env where
  time : Int
  localtime : Int → Tm
  mktime : Tm → Int × Tm
  host : String
  proxy : String
  timezone : String

/-- The JSON document of a reply: nothing (the handler returns ""), the
object of `today` and `tonight` (host, proxy, timestamp, location.timezone and
almanac with priority, updated and the named times in the order they were
added), or the object of `selftest`. -/
inductive Body where
  | empty : Body
  | almanac (host proxy : String) (timestamp : Int) (timezone : String)
      (priority updated : Int) (times : List (String × Int)) : Body
  | selftest (host proxy : String) (timestamp : Int) (priority : Int)
      (sunrise sunset : List String) : Body

/-- A reply: the call of `echttp_error (status, text)`, if the handler made
one, and the document it returned. -/
structure Reply where
  error : Option (Int × String)
  body : Body

/-- The reply of a handler that finds `AlmanacIsConfigured` at 0:
`echttp_error (500, "Service initializing")` and `return ""`. -/
def notConfiguredReply : Reply :=
  { error := some (500, "Service initializing"), body := Body.empty }

/-- The conversion `%02d` of `printf`: at least two characters, padded with
a zero. -/
def printf02d (n : Int) : String :=
  if n < 0 then "-" ++ toString (-n).toNat
  else if n < 10 then "0" ++ toString n.toNat
  else toString n.toNat

/-- The text `snprintf` leaves in `ascii[32]` for the format
"%02d/%02d %02d:%02d": at most 31 characters. -/
def datetimeString (month day hour minute : Int) : String :=
  (printf02d month ++ "/" ++ printf02d day ++ " " ++ printf02d hour ++ ":" ++
    printf02d minute).take 31

/-- The function `housealmanac_add_datetime` of the source: one more string
at the end of the JSON array. -/
def housealmanac_add_datetime (array : List String) (t : Tm) : List String :=
  array ++ [datetimeString (t.tm_mon + 1) t.tm_mday t.tm_hour t.tm_min]

/-- The values of `day` in `for (day = 1; day <= count; ++day)`. -/
def loopDays (count : Int) : List Int :=
  (List.range count.toNat).map fun k => (k : Int) + 1

/-- The inner loop of lines 303 to 307 (and 314 to 318) over the days still
to visit, on the local `today` and the array filled so far. -/
def selftestDays (dst : Fin 2 → DayTimePoint) (monthly : Fin 12 → DayTimePoint) :
    List Int → Tm × List String → Option (Tm × List String)
  | [], acc => some acc
  | day :: rest, (today, array) =>
    (housealmanac_estimate dst monthly { today with tm_mday := day }).bind fun today =>
      selftestDays dst monthly rest (today, housealmanac_add_datetime array today)

/-- The outer loop of lines 299 to 308 (and 310 to 319) over the months
still to visit. -/
def selftestMonths (dst : Fin 2 → DayTimePoint) (monthly : Fin 12 → DayTimePoint) :
    List (Fin 12) → Tm × List String → Option (Tm × List String)
  | [], acc => some acc
  | month :: rest, (today, array) =>
    (selftestDays dst monthly (loopDays (DaysPerMonth month))
        ({ today with tm_mon := (month.val : Int) }, array)).bind fun acc =>
      selftestMonths dst monthly rest acc

/-- The function `housealmanac_selftest` of the source. -/
def housealmanac_selftest (s : AlmanacState) (env : Env) : Option Reply :=
  if !s.AlmanacIsConfigured then some notConfiguredReply
  else
    let now := env.time
    let today := env.localtime now
    (selftestMonths s.AlmanacDb.dst s.AlmanacDb.sunrises (List.finRange 12)
        (today, [])).bind fun r1 =>
    (selftestMonths s.AlmanacDb.dst s.AlmanacDb.sunsets (List.finRange 12)
        (r1.1, [])).map fun r2 =>
      { error := none,
        body := Body.selftest env.host env.proxy env.time 1 r1.2 r2.2 }

/-- The function `housealmanac_tonight` of the source. -/
def housealmanac_tonight (s : AlmanacState) (env : Env) : Option Reply :=
  if !s.AlmanacIsConfigured then some notConfiguredReply
  else
    let now := env.time
    let today := env.localtime now
    (housealmanac_estimate s.AlmanacDb.dst s.AlmanacDb.sunrises today).bind fun today =>
    let sunrise := (env.mktime today).1
    let today := (env.mktime today).2
    if sunrise < now then
      (housealmanac_estimate s.AlmanacDb.dst s.AlmanacDb.sunsets today).bind fun today =>
      let sunset := (env.mktime today).1
      let tomorrow := env.localtime (now + (24 * 60 * 60))
      (housealmanac_estimate s.AlmanacDb.dst s.AlmanacDb.sunrises tomorrow).map
        fun tomorrow =>
        { error := none,
          body := Body.almanac env.host env.proxy now env.timezone 1 now
            [("sunset", sunset), ("sunrise", (env.mktime tomorrow).1)] }
    else
      let yesterday := env.localtime (now - (24 * 60 * 60))
      (housealmanac_estimate s.AlmanacDb.dst s.AlmanacDb.sunsets yesterday).map
        fun yesterday =>
        { error := none,
          body := Body.almanac env.host env.proxy now env.timezone 1 now
            [("sunset", (env.mktime yesterday).1), ("sunrise", sunrise)] }

/-- The function `housealmanac_today` of the source. -/
def housealmanac_today (s : AlmanacState) (env : Env) : Option Reply :=
  if !s.AlmanacIsConfigured then some notConfiguredReply
  else
    let now := env.time
    let today := env.localtime now
    (housealmanac_estimate s.AlmanacDb.dst s.AlmanacDb.sunrises today).bind fun today =>
    let sunrise := (env.mktime today).1
    let today := (env.mktime today).2
    (housealmanac_estimate s.AlmanacDb.dst s.AlmanacDb.sunsets today).map fun today =>
      { error := none,
        body := Body.almanac env.host env.proxy now env.timezone 1 now
          [("sunrise", sunrise), ("sunset", (env.mktime today).1)] }

/-- The function `housealmanac_config_listener` of the source: `update` is
the configuration after `houseconfig_update (data)`, or `none` when that call
reported an error and the refresh is skipped. -/
def housealmanac_config_listener (update : Option Config) (s : AlmanacState) :
    AlmanacState :=
  match update with
  | none => s
  | some cfg => (housealmanac_refresh cfg s).2

/-- What can happen to the process after `main` has set it up: a
configuration arrives from the depot, or one of the three queries is served. -/
inductive Event where
  | config (update : Option Config) : Event
  | today (env : Env) : Event
  | tonight (env : Env) : Event
  | selftest (env : Env) : Event

/-- The effect of one event on the two globals: the queries only read them. -/
def step (s : AlmanacState) : Event → AlmanacState
  | Event.config update => housealmanac_config_listener update s
  | Event.today _ => s
  | Event.tonight _ => s
  | Event.selftest _ => s

/-- The state after a sequence of events. -/
def run (events : List Event) (s : AlmanacState) : AlmanacState :=
  events.foldl step s

/-- Some call of `housealmanac_refresh` made during the events returned
success (a null pointer). -/
def refreshSucceeded : List Event → AlmanacState → Bool
  | [], _ => false
  | Event.config (some cfg) :: rest, s =>
    (housealmanac_refresh cfg s).1.isNone || refreshSucceeded rest (step s (Event.config (some cfg)))
  | e :: rest, s => refreshSucceeded rest (step s e)

/-! ## Vocabulary of the statements -/

/-- Minutes since midnight of an anchor, as lines 205 and 206 compute them. -/
def DayTimePoint.minutes (p : DayTimePoint) : Int :=
  (p.hour * 60) + p.minute

/-- Minutes since midnight of the time of day held by a `struct tm`. -/
def Tm.minutes (t : Tm) : Int :=
  t.tm_hour * 60 + t.tm_min

/-- The `struct tm` the estimator leaves behind for an interpolated
`result`: seconds cleared, hour `result / 60`, minute `result % 60`. -/
def Tm.withResult (now : Tm) (result : Int) : Tm :=
  { now with tm_sec := 0, tm_hour := result.tdiv 60, tm_min := result.tmod 60 }

/-- The adjustment rule in the words of the specification: the first marker
(index 0, then index 1) that crosses the interval decides; before the marker
the upper time moves (-60 for index 0, +60 for index 1), on or after it the
lower time moves (+60 for index 0, -60 for index 1); no crossing marker, no
adjustment.  The result is the pair (lower, upper). -/
def adjustedTimes (dst : Fin 2 → DayTimePoint) (m1r m2r month day : Int)
    (lower upper : Int) : Int × Int :=
  if crosses (dst 0) m1r m2r then
    if housealmanac_before (dst 0) month day then (lower, upper - 60)
    else (lower + 60, upper)
  else if crosses (dst 1) m1r m2r then
    if housealmanac_before (dst 1) month day then (lower, upper + 60)
    else (lower - 60, upper)
  else (lower, upper)

/-- In the words of the claim on crossing detection: the marker's calendar
date lies strictly between day 15 of the lower anchor's calendar month and
day 15 of the upper anchor's calendar month (months 0 to 11; from December
to January the interval runs over the end of the year). -/
def strictlyBetweenAnchors (marker : DayTimePoint) (lowerMonth upperMonth : Int) :
    Prop :=
  if lowerMonth < upperMonth then
    (lowerMonth < marker.month - 1 ∨ (marker.month - 1 = lowerMonth ∧ 15 < marker.day)) ∧
    (marker.month - 1 < upperMonth ∨ (marker.month - 1 = upperMonth ∧ marker.day < 15))
  else
    (lowerMonth < marker.month - 1 ∨ (marker.month - 1 = lowerMonth ∧ 15 < marker.day)) ∨
    (marker.month - 1 < upperMonth ∨ (marker.month - 1 = upperMonth ∧ marker.day < 15))

instance (marker : DayTimePoint) (lowerMonth upperMonth : Int) :
    Decidable (strictlyBetweenAnchors marker lowerMonth upperMonth) := by
  unfold strictlyBetweenAnchors
  exact inferInstance

/-- The marker's date, as the pair (month - 1, day), is strictly after
(m1r, 15) and on or before (m2r, 15) in the order of the relative months. -/
def betweenRelative (marker : DayTimePoint) (m1r m2r : Int) : Prop :=
  (m1r < marker.month - 1 ∨ (m1r = marker.month - 1 ∧ 15 < marker.day)) ∧
  (marker.month - 1 < m2r ∨ (marker.month - 1 = m2r ∧ marker.day ≤ 15))

instance (marker : DayTimePoint) (m1r m2r : Int) :
    Decidable (betweenRelative marker m1r m2r) := by
  unfold betweenRelative
  exact inferInstance

/-- The marker's calendar date lies after day 15 of the lower anchor's
calendar month and on or before day 15 of the upper anchor's calendar month
(months 0 to 11; from December to January the interval runs over the end of
the year). -/
def afterLowerUpToUpper (marker : DayTimePoint) (lowerMonth upperMonth : Int) :
    Prop :=
  if lowerMonth < upperMonth then
    (lowerMonth < marker.month - 1 ∨ (marker.month - 1 = lowerMonth ∧ 15 < marker.day)) ∧
    (marker.month - 1 < upperMonth ∨ (marker.month - 1 = upperMonth ∧ marker.day ≤ 15))
  else
    (lowerMonth < marker.month - 1 ∨ (marker.month - 1 = lowerMonth ∧ 15 < marker.day)) ∨
    (marker.month - 1 < upperMonth ∨ (marker.month - 1 = upperMonth ∧ marker.day ≤ 15))

instance (marker : DayTimePoint) (lowerMonth upperMonth : Int) :
    Decidable (afterLowerUpToUpper marker lowerMonth upperMonth) := by
  unfold afterLowerUpToUpper
  exact inferInstance

/-- For the two intervals over the end of the year: the marker is dated in
the half of the interval that lies in the other year than the query, which
is December 16 to 31 for the relative months (-1, 0) and January 1 to 15 for
(11, 12). -/
def inOtherYearHalf (marker : DayTimePoint) (b : Bracket) : Prop :=
  (b.m1r = -1 ∧ marker.month = 12 ∧ 15 < marker.day) ∨
  (b.m2r = 12 ∧ marker.month = 1 ∧ marker.day ≤ 15)

instance (marker : DayTimePoint) (b : Bracket) :
    Decidable (inOtherYearHalf marker b) := by
  unfold inOtherYearHalf
  exact inferInstance

/-- A DST slot nobody configured: month 0 and day 0. -/
def absentMarker (d : DayTimePoint) : Prop :=
  d.month = 0 ∧ d.day = 0

instance (d : DayTimePoint) : Decidable (absentMarker d) := by
  unfold absentMarker
  exact inferInstance

/-- A DST slot that holds a calendar date. -/
def validMarker (d : DayTimePoint) : Prop :=
  (1 ≤ d.month ∧ d.month ≤ 12) ∧ (1 ≤ d.day ∧ d.day ≤ 31)

instance (d : DayTimePoint) : Decidable (validMarker d) := by
  unfold validMarker
  exact inferInstance

/-- A table whose twelve anchors are times of day. -/
def validTable (monthly : Fin 12 → DayTimePoint) : Prop :=
  ∀ i, (0 ≤ (monthly i).hour ∧ (monthly i).hour ≤ 23) ∧
       (0 ≤ (monthly i).minute ∧ (monthly i).minute ≤ 59)

instance (monthly : Fin 12 → DayTimePoint) : Decidable (validTable monthly) := by
  unfold validTable
  exact inferInstance

/-- The position of a day between its two anchors, in days of a 30 day
month after the lower anchor: `day - 16` after day 15 and `day + 14` before. -/
def dayOffset (day : Int) : Int :=
  if day > 15 then day - 16 else day + 14

/-- The dates from day 15 of month `m` through day 15 of the following month
(`m + 1` in `Fin 12` is January for December). -/
def inInterval (m : Fin 12) (month day : Int) : Prop :=
  (month = (m.val : Int) ∧ 15 ≤ day ∧ day ≤ 31) ∨
  (month = ((m + 1).val : Int) ∧ 1 ≤ day ∧ day ≤ 15)

instance (m : Fin 12) (month day : Int) : Decidable (inInterval m month day) := by
  unfold inInterval
  exact inferInstance

/-- Calendar order of two dates of the interval that starts on day 15 of
month `m`: the days of month `m` come first. -/
def calendarLE (m : Fin 12) (month1 day1 month2 day2 : Int) : Prop :=
  (month1 = (m.val : Int) ∧ month2 = ((m + 1).val : Int)) ∨
  (month1 = month2 ∧ day1 ≤ day2)

instance (m : Fin 12) (month1 day1 month2 day2 : Int) :
    Decidable (calendarLE m month1 day1 month2 day2) := by
  unfold calendarLE
  exact inferInstance

/-- No marker is detected as crossing between the anchors of month `m` and of
the following month: the estimator tests the relative months (m, m+1), and
for December to January (11, 12) from December and (-1, 0) from January. -/
def noMarkerCrosses (dst : Fin 2 → DayTimePoint) (m : Fin 12) : Prop :=
  ∀ i, if m.val = 11 then
         crosses (dst i) 11 12 = false ∧ crosses (dst i) (-1) 0 = false
       else crosses (dst i) (m.val : Int) ((m.val : Int) + 1) = false

instance (dst : Fin 2 → DayTimePoint) (m : Fin 12) :
    Decidable (noMarkerCrosses dst m) := by
  unfold noMarkerCrosses
  exact inferInstance

/-- A marker dated from December 15 to January 15, both days included. -/
def datedDec15ToJan15 (d : DayTimePoint) : Prop :=
  (d.month = 12 ∧ 15 ≤ d.day) ∨ (d.month = 1 ∧ d.day ≤ 15)

instance (d : DayTimePoint) : Decidable (datedDec15ToJan15 d) := by
  unfold datedDec15ToJan15
  exact inferInstance

/-- The position of a date of the interval after day 15 of month `m`, in
days of a 30 day month after the lower anchor: 0 and 30 on the two anchors. -/
def intervalOffset (m : Fin 12) (month day : Int) : Int :=
  if day = 15 then (if month = (m.val : Int) then 0 else 30) else dayOffset day

/-- The number a string of decimal digits denotes. -/
def decimalValue (ds : List Char) : Int :=
  ds.foldl (fun acc c => acc * 10 + ((c.toNat : Int) - 48)) 0

/-- A decimal number: one digit or more, and digits only. -/
def isDecimal (ds : List Char) : Prop :=
  ds ≠ [] ∧ ∀ c ∈ ds, isdigit c = true

instance (ds : List Char) : Decidable (isDecimal ds) := by
  unfold isDecimal
  exact inferInstance

/-- The string is "H" or "H:MM" for the hour `H` in 0..23 and the minute
`MM` in 0..59 (0 when there is no colon). -/
def isDaytimeString (str : List Char) (H MM : Int) : Prop :=
  (isDecimal str ∧ decimalValue str = H ∧ H ≤ 23 ∧ MM = 0) ∨
  (∃ hs ms, str = hs ++ ':' :: ms ∧ isDecimal hs ∧ isDecimal ms ∧
    decimalValue hs = H ∧ H ≤ 23 ∧ decimalValue ms = MM ∧ MM ≤ 59)

/-- The string is "M" or "M/D" for the month `M` in 1..12 and the day `D`
in 1..31 (15 when there is no slash). -/
def isDstString (str : List Char) (M D : Int) : Prop :=
  (isDecimal str ∧ decimalValue str = M ∧ 1 ≤ M ∧ M ≤ 12 ∧ D = 15) ∨
  (∃ ms ds, str = ms ++ '/' :: ds ∧ isDecimal ms ∧ isDecimal ds ∧
    decimalValue ms = M ∧ 1 ≤ M ∧ M ≤ 12 ∧ decimalValue ds = D ∧ 1 ≤ D ∧ D ≤ 31)

/-- The string starts with a decimal digit. -/
def startsWithDecimal (str : List Char) : Bool :=
  match str with
  | [] => false
  | c :: _ => isdigit c

/-- The hour and the minute the estimator gives for the date (month, day),
asked with a `struct tm` that holds nothing else. -/
def estimatedTime (dst : Fin 2 → DayTimePoint) (monthly : Fin 12 → DayTimePoint)
    (month day : Int) : Option (Int × Int) :=
  (housealmanac_estimate dst monthly ⟨0, 0, 0, day, month, 0, 0, 0, 0⟩).map
    fun r => (r.tm_hour, r.tm_min)

/-- The dates of a year of 365 days in calendar order, as pairs of a month
0..11 and a day 1..DaysPerMonth[month]. -/
def yearDates : List (Int × Int) :=
  (List.finRange 12).flatMap fun month =>
    (List.range (DaysPerMonth month).toNat).map fun k => ((month.val : Int), (k : Int) + 1)

/-- The date `a` comes before the date `b` in the calendar. -/
def dateBefore (a b : Int × Int) : Prop :=
  a.1 < b.1 ∨ (a.1 = b.1 ∧ a.2 < b.2)

instance (a b : Int × Int) : Decidable (dateBefore a b) := by
  unfold dateBefore
  exact inferInstance

/-- Each date of the list comes before the next one. -/
def datesIncrease : List (Int × Int) → Bool
  | a :: b :: rest => decide (dateBefore a b) && datesIncrease (b :: rest)
  | _ => true

/-- The entry is the text "MM/DD HH:MM" made of the month plus one and the
day of the date, with the hour and the minute the estimator gives for that
date. -/
def entryOf (dst : Fin 2 → DayTimePoint) (monthly : Fin 12 → DayTimePoint)
    (date : Int × Int) (entry : String) : Prop :=
  ∃ hour minute : Int,
    estimatedTime dst monthly date.1 date.2 = some (hour, minute) ∧
    entry = datetimeString (date.1 + 1) date.2 hour minute

/-- The timestamp `mktime` gives for the estimate of the table at the local
date held by `date`. -/
def estimateTimestamp (env : Env) (dst : Fin 2 → DayTimePoint)
    (monthly : Fin 12 → DayTimePoint) (date : Tm) : Option Int :=
  (housealmanac_estimate dst monthly date).map fun r => (env.mktime r).1

/-- The C library's promise on the month: `localtime` and `mktime` leave a
month 0..11 in the `struct tm`. -/
def Env.calendarMonths (env : Env) : Prop :=
  (∀ t, 0 ≤ (env.localtime t).tm_mon ∧ (env.localtime t).tm_mon ≤ 11) ∧
  (∀ t, 0 ≤ (env.mktime t).2.tm_mon ∧ (env.mktime t).2.tm_mon ≤ 11)

/-! ## Sample data for the instances -/

/-- A `struct tm` for the date (month, day). -/
def sampleTm (month day : Int) : Tm :=
  { tm_sec := 42, tm_min := 17, tm_hour := 11, tm_mday := day, tm_mon := month,
    tm_year := 125, tm_wday := 0, tm_yday := 0, tm_isdst := 0 }

/-- A sunrise table: 7:30 in January, one minute earlier each month. -/
def sampleTable : Fin 12 → DayTimePoint :=
  fun i => ⟨(i.val : Int) + 1, 15, 7, 30 - (i.val : Int)⟩

/-- Markers on March 9 and November 2. -/
def sampleDst : Fin 2 → DayTimePoint :=
  ![⟨3, 9, 2, 0⟩, ⟨11, 2, 2, 0⟩]

/-- A state that a former refresh configured. -/
def sampleState : AlmanacState :=
  { AlmanacDb := { sunrises := sampleTable,
                   sunsets := fun i => ⟨(i.val : Int) + 1, 15, 17, (i.val : Int)⟩,
                   dst := sampleDst },
    AlmanacIsConfigured := true }

/-- Twelve sunrises and two markers, but three sunsets only. -/
def shortSunsetConfig : Config :=
  { sunrise := some (List.replicate 12 (some "6:30".toList)),
    sunset := some (List.replicate 3 (some "18:15".toList)),
    dst := some [some "3/9".toList, some "11/2".toList] }

/-- A configuration with eleven sunrises. -/
def shortSunriseConfig : Config :=
  { sunrise := some (List.replicate 11 (some "6:30".toList)),
    sunset := some (List.replicate 12 (some "18:15".toList)),
    dst := some [some "3/9".toList, some "11/2".toList] }

/-- A configuration with the strings "6:30", "6", "3/20" and "11". -/
def parseConfig : Config :=
  { sunrise := some (some "6:30".toList :: some "6".toList ::
      List.replicate 10 (some "7:05".toList)),
    sunset := some (List.replicate 12 (some "18:15".toList)),
    dst := some [some "3/20".toList, some "11".toList] }

/-- A configuration whose first sunrise is "abc" and whose second marker is
the empty string. -/
def malformedConfig : Config :=
  { sunrise := some (some "abc".toList :: List.replicate 11 (some "6:30".toList)),
    sunset := some (List.replicate 12 (some "18:15".toList)),
    dst := some [some "3/9".toList, some "".toList] }

/-- A configuration whose first sunrise, second sunset and second marker are
not strings. -/
def holeConfig : Config :=
  { sunrise := some (none :: List.replicate 11 (some "6:30".toList)),
    sunset := some (some "18:15".toList :: none ::
      List.replicate 10 (some "18:15".toList)),
    dst := some [some "3/9".toList, none] }

/-- A table with 7:00 in December (and the other months) and 8:00 in
January. -/
def stepTable : Fin 12 → DayTimePoint :=
  fun i => if i = 0 then ⟨1, 15, 8, 0⟩ else ⟨(i.val : Int) + 1, 15, 7, 0⟩

/-- A table with 8:00 in December (and the other months) and 7:00 in
January. -/
def reverseStepTable : Fin 12 → DayTimePoint :=
  fun i => if i = 0 then ⟨1, 15, 7, 0⟩ else ⟨(i.val : Int) + 1, 15, 8, 0⟩

/-- A single marker, in slot 0, on January 5; slot 1 is absent. -/
def januaryMarker : Fin 2 → DayTimePoint :=
  ![⟨1, 5, 2, 0⟩, DayTimePoint.zero]

/-- A clock for the instances: every time is January 1, `mktime` counts the
seconds since midnight, and it is 11:06:40 (40000 seconds). -/
def sampleEnv : Env :=
  { time := 40000,
    localtime := fun _ => sampleTm 0 1,
    mktime := fun t =>
      (t.tm_hour * 3600 + t.tm_min * 60 + t.tm_sec, { t with tm_mon := t.tm_mon % 12 }),
    host := "house", proxy := "portal", timezone := "Europe/Paris" }

/-! ## Theorems -/

theorem index_fin {n : Nat} {α : Type} (array : Fin n → α) (m : Fin n) :
    index array ((m.val : Nat) : Int) = some (array m) := by
  unfold index
  have h : (0 : Int) ≤ (m.val : Int) ∧ ((m.val : Nat) : Int) < (n : Int) := by
    constructor <;> omega
  rw [dif_pos h]
  simp

theorem index_of_eq {n : Nat} {α : Type} (array : Fin n → α) (m : Fin n) (i : Int)
    (h : i = (m.val : Int)) : index array i = some (array m) := by
  rw [h]; exact index_fin array m

theorem before_iff (d : DayTimePoint) (month day : Int) :
    housealmanac_before d month day = true ↔
      (month < d.month - 1 ∨ (month = d.month - 1 ∧ day < d.day)) := by
  unfold housealmanac_before
  simp only []
  split_ifs <;> simp <;> omega

theorem crosses_iff (d : DayTimePoint) (m1r m2r : Int) (h : m1r < m2r) :
    crosses d m1r m2r = true ↔ betweenRelative d m1r m2r := by
  unfold crosses betweenRelative
  have h1 := before_iff d m1r 15
  have h2 := before_iff d m2r 15
  cases hb1 : housealmanac_before d m1r 15 <;>
    cases hb2 : housealmanac_before d m2r 15 <;>
    simp [hb1, hb2] at h1 h2 ⊢ <;> omega

theorem dstLoop_eq_adjustedTimes (dst : Fin 2 → DayTimePoint)
    (m1r m2r month day time1 time2 : Int) :
    dstLoop dst m1r m2r month day [0, 1] (time1, time2) =
      adjustedTimes dst m1r m2r month day time1 time2 := by
  unfold adjustedTimes
  simp only [dstLoop]
  split_ifs <;> simp_all <;> rfl

theorem exact_anchor_lemma (dst : Fin 2 → DayTimePoint)
    (monthly : Fin 12 → DayTimePoint) (now : Tm) (m : Fin 12)
    (hmon : now.tm_mon = (m.val : Int)) (hday : now.tm_mday = 15) :
    housealmanac_estimate dst monthly now =
      some { now with tm_sec := 0, tm_hour := (monthly m).hour,
                      tm_min := (monthly m).minute } := by
  simp [housealmanac_estimate, hday, hmon, index_fin]

theorem bracket_m1c_fin (m : Fin 12) (month day : Int) (hmon : month = (m.val : Int)) :
    ∃ c1 : Fin 12, (bracket month day).m1c = (c1.val : Int) := by
  unfold bracket
  split_ifs
  · exact ⟨m, hmon⟩
  · exact ⟨m, hmon⟩
  · exact ⟨⟨m.val - 1, by omega⟩, by dsimp only; omega⟩
  · exact ⟨11, rfl⟩

theorem bracket_m2c_fin (m : Fin 12) (month day : Int) (hmon : month = (m.val : Int)) :
    ∃ c2 : Fin 12, (bracket month day).m2c = (c2.val : Int) := by
  unfold bracket
  split_ifs
  · exact ⟨0, rfl⟩
  · exact ⟨⟨m.val + 1, by omega⟩, by dsimp only; push_cast; omega⟩
  · exact ⟨m, hmon⟩
  · exact ⟨m, hmon⟩

theorem crosses_absent (marker : DayTimePoint) (habs : absentMarker marker)
    (m1r m2r : Int) (h1 : -1 ≤ m1r) (h2 : -1 ≤ m2r) :
    crosses marker m1r m2r = false := by
  obtain ⟨hm, hd⟩ := habs
  have e1 : housealmanac_before marker m1r 15 = false := by
    rw [← Bool.not_eq_true, before_iff]; omega
  have e2 : housealmanac_before marker m2r 15 = false := by
    rw [← Bool.not_eq_true, before_iff]; omega
  simp [crosses, e1, e2]

theorem adjustedTimes_of_no_crossing (dst : Fin 2 → DayTimePoint)
    (m1r m2r month day lower upper : Int)
    (h : ∀ i, crosses (dst i) m1r m2r = false) :
    adjustedTimes dst m1r m2r month day lower upper = (lower, upper) := by
  simp [adjustedTimes, h 0, h 1]

theorem estimate_eq_regression (dst : Fin 2 → DayTimePoint)
    (monthly : Fin 12 → DayTimePoint) (now : Tm) (c1 c2 : Fin 12)
    (hday : now.tm_mday ≠ 15)
    (hc1 : (bracket now.tm_mon now.tm_mday).m1c = (c1.val : Int))
    (hc2 : (bracket now.tm_mon now.tm_mday).m2c = (c2.val : Int)) :
    housealmanac_estimate dst monthly now =
      some (now.withResult
        (regression (bracket now.tm_mon now.tm_mday).m1r now.tm_mon now.tm_mday
          (adjustedTimes dst (bracket now.tm_mon now.tm_mday).m1r
            (bracket now.tm_mon now.tm_mday).m2r now.tm_mon now.tm_mday
            (monthly c1).minutes (monthly c2).minutes).1
          (adjustedTimes dst (bracket now.tm_mon now.tm_mday).m1r
            (bracket now.tm_mon now.tm_mday).m2r now.tm_mon now.tm_mday
            (monthly c1).minutes (monthly c2).minutes).2)) := by
  unfold housealmanac_estimate
  simp only [if_neg hday, index_of_eq monthly c1 _ hc1, index_of_eq monthly c2 _ hc2,
    Option.some_bind, Option.map_some', dstLoop_eq_adjustedTimes]
  rfl

theorem regression_bracket (month day t1 t2 : Int) (hm0 : 0 ≤ month)
    (hm11 : month ≤ 11) :
    regression (bracket month day).m1r month day t1 t2 =
      ((30 - dayOffset day) * t1 + dayOffset day * t2).tdiv 30 := by
  unfold regression bracket dayOffset
  split_ifs with h1 h2 h2
  all_goals dsimp only
  all_goals congr 1
  · ring
  · ring
  · ring
  · have h0 : month = 0 := by omega
    subst h0
    ring

theorem withResult_minutes (now : Tm) (result : Int) :
    (now.withResult result).minutes = result := by
  unfold Tm.withResult Tm.minutes
  exact Int.tdiv_add_tmod' result 60

theorem fin_succ_val (m : Fin 12) :
    (((m + 1 : Fin 12).val : Nat) : Int) = if m.val = 11 then 0 else (m.val : Int) + 1 := by
  have h : (m + 1 : Fin 12).val = (m.val + 1) % 12 := by
    rw [Fin.val_add]; rfl
  rw [h]
  split_ifs <;> omega

theorem bracket_first_half (m : Fin 12) (month day : Int)
    (hmon : month = (m.val : Int)) (hd : 15 < day) :
    (bracket month day).m1c = (m.val : Int) ∧
    (bracket month day).m2c = ((m + 1 : Fin 12).val : Int) ∧
    (bracket month day).m1r = (if m.val = 11 then 11 else (m.val : Int)) ∧
    (bracket month day).m2r = (if m.val = 11 then 12 else (m.val : Int) + 1) := by
  rw [fin_succ_val]
  unfold bracket
  split_ifs <;> dsimp only <;> omega

theorem bracket_second_half (m : Fin 12) (month day : Int)
    (hmon : month = ((m + 1 : Fin 12).val : Int)) (hd : day < 15) :
    (bracket month day).m1c = (m.val : Int) ∧
    (bracket month day).m2c = ((m + 1 : Fin 12).val : Int) ∧
    (bracket month day).m1r = (if m.val = 11 then -1 else (m.val : Int)) ∧
    (bracket month day).m2r = (if m.val = 11 then 0 else (m.val : Int) + 1) := by
  rw [fin_succ_val] at hmon ⊢
  unfold bracket
  split_ifs at hmon ⊢ <;> dsimp only <;> omega

theorem estimate_in_interval (dst : Fin 2 → DayTimePoint)
    (monthly : Fin 12 → DayTimePoint) (m : Fin 12) (now : Tm)
    (hin : inInterval m now.tm_mon now.tm_mday) (hno : noMarkerCrosses dst m) :
    ∃ e, housealmanac_estimate dst monthly now = some e ∧
      e.minutes =
        ((30 - intervalOffset m now.tm_mon now.tm_mday) * (monthly m).minutes +
          intervalOffset m now.tm_mon now.tm_mday * (monthly (m + 1)).minutes).tdiv 30 ∧
      0 ≤ intervalOffset m now.tm_mon now.tm_mday ∧
      intervalOffset m now.tm_mon now.tm_mday ≤ 30 := by
  have hsucc := fin_succ_val m
  have hm11 : m.val ≤ 11 := by omega
  rcases hin with ⟨hmon, h15, h31⟩ | ⟨hmon, h1, h15⟩
  · by_cases hd : now.tm_mday = 15
    · refine ⟨_, exact_anchor_lemma dst monthly now m hmon hd, ?_, ?_, ?_⟩
      · simp only [intervalOffset, if_pos hd, if_pos hmon]
        simp [Tm.minutes, DayTimePoint.minutes]
      · simp [intervalOffset, hd, hmon]
      · simp [intervalOffset, hd, hmon]
    · obtain ⟨b1, b2, b3, b4⟩ := bracket_first_half m now.tm_mon now.tm_mday hmon (by omega)
      have hcross : ∀ i, crosses (dst i) (bracket now.tm_mon now.tm_mday).m1r
          (bracket now.tm_mon now.tm_mday).m2r = false := by
        intro i
        have h := hno i
        rw [b3, b4]
        split_ifs at h ⊢
        · exact h.1
        · exact h
      refine ⟨_, estimate_eq_regression dst monthly now m (m + 1) hd b1 b2, ?_, ?_, ?_⟩
      · rw [withResult_minutes, adjustedTimes_of_no_crossing dst _ _ _ _ _ _ hcross,
          regression_bracket _ _ _ _ (by omega) (by omega)]
        simp only [intervalOffset, if_neg hd]
      · simp only [intervalOffset, if_neg hd, dayOffset]
        split_ifs <;> omega
      · simp only [intervalOffset, if_neg hd, dayOffset]
        split_ifs <;> omega
  · by_cases hd : now.tm_mday = 15
    · have hne : now.tm_mon ≠ (m.val : Int) := by
        rw [hmon, hsucc]; split_ifs <;> omega
      refine ⟨_, exact_anchor_lemma dst monthly now (m + 1) hmon hd, ?_, ?_, ?_⟩
      · simp only [intervalOffset, if_pos hd, if_neg hne]
        simp [Tm.minutes, DayTimePoint.minutes]
      · simp [intervalOffset, hd, hne]
      · simp [intervalOffset, hd, hne]
    · obtain ⟨b1, b2, b3, b4⟩ := bracket_second_half m now.tm_mon now.tm_mday hmon (by omega)
      have hcross : ∀ i, crosses (dst i) (bracket now.tm_mon now.tm_mday).m1r
          (bracket now.tm_mon now.tm_mday).m2r = false := by
        intro i
        have h := hno i
        rw [b3, b4]
        split_ifs at h ⊢
        · exact h.2
        · exact h
      have hr : 0 ≤ now.tm_mon ∧ now.tm_mon ≤ 11 := by
        rw [hmon, hsucc]; split_ifs <;> omega
      refine ⟨_, estimate_eq_regression dst monthly now m (m + 1) hd b1 b2, ?_, ?_, ?_⟩
      · rw [withResult_minutes, adjustedTimes_of_no_crossing dst _ _ _ _ _ _ hcross,
          regression_bracket _ _ _ _ hr.1 hr.2]
        simp only [intervalOffset, if_neg hd]
      · simp only [intervalOffset, if_neg hd, dayOffset]
        split_ifs <;> omega
      · simp only [intervalOffset, if_neg hd, dayOffset]
        split_ifs <;> omega

theorem interpolation_mono (t1 t2 x y : Int) (h1 : 0 ≤ t1) (h2 : 0 ≤ t2)
    (hx : 0 ≤ x) (hxy : x ≤ y) (hy : y ≤ 30) (h : t1 ≤ t2) :
    ((30 - x) * t1 + x * t2).tdiv 30 ≤ ((30 - y) * t1 + y * t2).tdiv 30 := by
  have n1 : 0 ≤ (30 - x) * t1 + x * t2 :=
    add_nonneg (mul_nonneg (by omega) h1) (mul_nonneg hx h2)
  have n2 : 0 ≤ (30 - y) * t1 + y * t2 :=
    add_nonneg (mul_nonneg (by omega) h1) (mul_nonneg (by omega) h2)
  rw [Int.tdiv_eq_ediv n1 (by omega), Int.tdiv_eq_ediv n2 (by omega)]
  apply Int.ediv_le_ediv (by omega)
  nlinarith [mul_nonneg (sub_nonneg.mpr hxy) (sub_nonneg.mpr h)]

theorem interpolation_anti (t1 t2 x y : Int) (h1 : 0 ≤ t1) (h2 : 0 ≤ t2)
    (hx : 0 ≤ x) (hxy : x ≤ y) (hy : y ≤ 30) (h : t2 ≤ t1) :
    ((30 - y) * t1 + y * t2).tdiv 30 ≤ ((30 - x) * t1 + x * t2).tdiv 30 := by
  have n1 : 0 ≤ (30 - x) * t1 + x * t2 :=
    add_nonneg (mul_nonneg (by omega) h1) (mul_nonneg hx h2)
  have n2 : 0 ≤ (30 - y) * t1 + y * t2 :=
    add_nonneg (mul_nonneg (by omega) h1) (mul_nonneg (by omega) h2)
  rw [Int.tdiv_eq_ediv n1 (by omega), Int.tdiv_eq_ediv n2 (by omega)]
  apply Int.ediv_le_ediv (by omega)
  nlinarith [mul_nonneg (sub_nonneg.mpr hxy) (sub_nonneg.mpr h)]

theorem validTable_minutes_nonneg (monthly : Fin 12 → DayTimePoint)
    (hvalid : validTable monthly) (i : Fin 12) : 0 ≤ (monthly i).minutes := by
  obtain ⟨⟨h1, _⟩, h2, _⟩ := hvalid i
  unfold DayTimePoint.minutes
  omega

theorem noMarkerCrosses_december (dst : Fin 2 → DayTimePoint)
    (hdst : ∀ i, absentMarker (dst i) ∨
      (validMarker (dst i) ∧ ¬ datedDec15ToJan15 (dst i))) :
    noMarkerCrosses dst 11 := by
  intro i
  rw [if_pos (by rfl)]
  rcases hdst i with habs | ⟨⟨⟨v1, v2⟩, v3, v4⟩, hout⟩
  · exact ⟨crosses_absent _ habs _ _ (by omega) (by omega),
      crosses_absent _ habs _ _ (by omega) (by omega)⟩
  · unfold datedDec15ToJan15 at hout
    constructor
    · rw [← Bool.not_eq_true, crosses_iff _ _ _ (by omega)]
      unfold betweenRelative
      omega
    · rw [← Bool.not_eq_true, crosses_iff _ _ _ (by omega)]
      unfold betweenRelative
      omega

theorem fillSlot_some {n : Nat} (array : List (Option (List Char)))
    (parse : Nat → List Char → DayTimePoint → DayTimePoint)
    (table : Fin n → DayTimePoint) (i : Fin n) (str : List Char)
    (h : houseconfig_string array i.val = some str) :
    fillSlot array parse table i =
      Function.update table i (parse i.val str (table i)) := by
  unfold fillSlot
  rw [h]

theorem fillSlot_none {n : Nat} (array : List (Option (List Char)))
    (parse : Nat → List Char → DayTimePoint → DayTimePoint)
    (table : Fin n → DayTimePoint) (i : Fin n)
    (h : houseconfig_string array i.val = none) :
    fillSlot array parse table i = table := by
  unfold fillSlot
  rw [h]

theorem fillSlot_other {n : Nat} (array : List (Option (List Char)))
    (parse : Nat → List Char → DayTimePoint → DayTimePoint)
    (table : Fin n → DayTimePoint) (i j : Fin n) (h : j ≠ i) :
    fillSlot array parse table i j = table j := by
  cases hs : houseconfig_string array i.val with
  | none => rw [fillSlot_none array parse table i hs]
  | some str =>
    rw [fillSlot_some array parse table i str hs]
    exact Function.update_noteq h _ _

theorem fillSlot_same {n : Nat} (array : List (Option (List Char)))
    (parse : Nat → List Char → DayTimePoint → DayTimePoint)
    (table table2 : Fin n → DayTimePoint) (j : Fin n) (h : table2 j = table j) :
    fillSlot array parse table2 j j = fillSlot array parse table j j := by
  cases hs : houseconfig_string array j.val with
  | none =>
    rw [fillSlot_none array parse table j hs, fillSlot_none array parse table2 j hs, h]
  | some str =>
    rw [fillSlot_some array parse table j str hs,
      fillSlot_some array parse table2 j str hs, Function.update_same,
      Function.update_same, h]

theorem foldl_fillSlot_not_mem {n : Nat} (array : List (Option (List Char)))
    (parse : Nat → List Char → DayTimePoint → DayTimePoint) (l : List (Fin n))
    (table : Fin n → DayTimePoint) (j : Fin n) (h : j ∉ l) :
    l.foldl (fillSlot array parse) table j = table j := by
  induction l generalizing table with
  | nil => rfl
  | cons i rest ih =>
    rw [List.foldl_cons, ih _ (fun hmem => h (List.mem_cons_of_mem _ hmem))]
    exact fillSlot_other array parse table i j (fun e => h (e ▸ List.mem_cons_self _ _))

theorem foldl_fillSlot_mem {n : Nat} (array : List (Option (List Char)))
    (parse : Nat → List Char → DayTimePoint → DayTimePoint) (l : List (Fin n))
    (hl : l.Nodup) (table : Fin n → DayTimePoint) (j : Fin n) (h : j ∈ l) :
    l.foldl (fillSlot array parse) table j = fillSlot array parse table j j := by
  induction l generalizing table with
  | nil => cases h
  | cons i rest ih =>
    rw [List.foldl_cons]
    rw [List.nodup_cons] at hl
    by_cases hji : j = i
    · subst hji
      exact foldl_fillSlot_not_mem array parse rest _ j hl.1
    · have hmem : j ∈ rest := by
        cases h with
        | head => exact absurd rfl hji
        | tail _ hm => exact hm
      rw [ih hl.2 _ hmem]
      exact fillSlot_same array parse table _ j
        (fillSlot_other array parse table i j hji)

theorem fillTable_apply {n : Nat} (array : List (Option (List Char)))
    (parse : Nat → List Char → DayTimePoint → DayTimePoint)
    (table : Fin n → DayTimePoint) (j : Fin n) :
    fillTable array parse table j = fillSlot array parse table j j :=
  foldl_fillSlot_mem array parse (List.finRange n) (List.nodup_finRange n) table j
    (List.mem_finRange j)

theorem fillTable_some {n : Nat} (array : List (Option (List Char)))
    (parse : Nat → List Char → DayTimePoint → DayTimePoint)
    (table : Fin n → DayTimePoint) (j : Fin n) (str : List Char)
    (h : houseconfig_string array j.val = some str) :
    fillTable array parse table j = parse j.val str (table j) := by
  rw [fillTable_apply, fillSlot_some array parse table j str h]
  exact Function.update_same _ _ _

theorem fillTable_none {n : Nat} (array : List (Option (List Char)))
    (parse : Nat → List Char → DayTimePoint → DayTimePoint)
    (table : Fin n → DayTimePoint) (j : Fin n)
    (h : houseconfig_string array j.val = none) :
    fillTable array parse table j = table j := by
  rw [fillTable_apply, fillSlot_none array parse table j h]

theorem refresh_success (sunrises sunsets dst : List (Option (List Char)))
    (s : AlmanacState)
    (hok : (housealmanac_refresh ⟨some sunrises, some sunsets, some dst⟩ s).1 = none) :
    (housealmanac_refresh ⟨some sunrises, some sunsets, some dst⟩ s).2 =
      { AlmanacDb :=
          { sunrises := fillTable sunrises parseDaytime s.AlmanacDb.sunrises,
            sunsets := fillTable sunsets parseDaytime s.AlmanacDb.sunsets,
            dst := fillTable dst (fun _ => parseDst) s.AlmanacDb.dst },
        AlmanacIsConfigured := true } := by
  unfold housealmanac_refresh at hok ⊢
  simp only [] at hok ⊢
  split_ifs at hok ⊢
  rfl

theorem isdigit_bounds (c : Char) (h : isdigit c = true) :
    48 ≤ c.toNat ∧ c.toNat ≤ 57 := by
  unfold isdigit at h
  simpa using h

theorem isdigit_not_space (c : Char) (h : isdigit c = true) : isspace c = false := by
  have hb := isdigit_bounds c h
  unfold isspace
  simp only [Bool.or_eq_false_iff, Bool.and_eq_false_iff, decide_eq_false_iff_not]
  omega

theorem isdigit_ne (c x : Char) (h : isdigit c = true) (hx : isdigit x = false) :
    c ≠ x := by
  intro e
  rw [e, hx] at h
  cases h

theorem atoiDigits_append (ds rest : List Char) (acc : Int)
    (hds : ∀ c ∈ ds, isdigit c = true) (hrest : startsWithDecimal rest = false) :
    atoiDigits (ds ++ rest) acc =
      ds.foldl (fun acc c => acc * 10 + ((c.toNat : Int) - 48)) acc := by
  induction ds generalizing acc with
  | nil =>
    cases rest with
    | nil => rfl
    | cons c cs =>
      have hc : isdigit c = false := hrest
      simp [atoiDigits, hc]
  | cons d ds ih =>
    have hd : isdigit d = true := hds d (List.mem_cons_self _ _)
    simp only [List.cons_append, atoiDigits, hd, if_true, List.foldl_cons]
    exact ih _ (fun c hc => hds c (List.mem_cons_of_mem _ hc))

theorem atoi_decimal (ds rest : List Char) (hd : isDecimal ds)
    (hrest : startsWithDecimal rest = false) :
    atoi (ds ++ rest) = decimalValue ds := by
  obtain ⟨hne, hall⟩ := hd
  cases ds with
  | nil => exact absurd rfl hne
  | cons d ds =>
    have hdig : isdigit d = true := hall d (List.mem_cons_self _ _)
    have hsp : isspace d = false := isdigit_not_space d hdig
    have h1 : d ≠ '-' := isdigit_ne d _ hdig (by decide)
    have h2 : d ≠ '+' := isdigit_ne d _ hdig (by decide)
    unfold atoi decimalValue
    rw [List.cons_append, List.dropWhile_cons_of_neg (by simp [hsp])]
    simp only [if_neg h1, if_neg h2]
    rw [← List.cons_append]
    exact atoiDigits_append (d :: ds) rest 0 hall hrest

theorem atoi_decimal_whole (ds : List Char) (hd : isDecimal ds) :
    atoi ds = decimalValue ds := by
  have h := atoi_decimal ds [] hd rfl
  rwa [List.append_nil] at h

theorem foldl_digits_nonneg (ds : List Char) (acc : Int) (hacc : 0 ≤ acc)
    (hds : ∀ c ∈ ds, isdigit c = true) :
    0 ≤ ds.foldl (fun acc c => acc * 10 + ((c.toNat : Int) - 48)) acc := by
  induction ds generalizing acc with
  | nil => exact hacc
  | cons d ds ih =>
    have hb := isdigit_bounds d (hds d (List.mem_cons_self _ _))
    rw [List.foldl_cons]
    exact ih _ (by omega) (fun c hc => hds c (List.mem_cons_of_mem _ hc))

theorem decimalValue_nonneg (ds : List Char) (hd : isDecimal ds) :
    0 ≤ decimalValue ds :=
  foldl_digits_nonneg ds 0 (le_refl 0) hd.2

theorem strchr_append (ds rest : List Char) (c : Char) (h : ∀ x ∈ ds, x ≠ c) :
    strchr (ds ++ c :: rest) c = some (c :: rest) := by
  induction ds with
  | nil => simp [strchr]
  | cons d ds ih =>
    have hd : d ≠ c := h d (List.mem_cons_self _ _)
    simp only [List.cons_append, strchr, if_neg hd]
    exact ih (fun x hx => h x (List.mem_cons_of_mem _ hx))

theorem strchr_none (ds : List Char) (c : Char) (h : ∀ x ∈ ds, x ≠ c) :
    strchr ds c = none := by
  induction ds with
  | nil => rfl
  | cons d ds ih =>
    have hd : d ≠ c := h d (List.mem_cons_self _ _)
    simp only [strchr, if_neg hd]
    exact ih (fun x hx => h x (List.mem_cons_of_mem _ hx))

theorem toChar_small (v : Int) (h0 : 0 ≤ v) (h1 : v ≤ 127) : toChar v = v := by
  unfold toChar
  omega

theorem parseDaytime_wellformed (i : Nat) (hi : i < 12) (str : List Char)
    (H MM : Int) (old : DayTimePoint) (h : isDaytimeString str H MM) :
    parseDaytime i str old = ⟨(i : Int) + 1, 15, H, MM⟩ := by
  have hmonth : toChar ((i : Int) + 1) = (i : Int) + 1 :=
    toChar_small _ (by omega) (by omega)
  rcases h with ⟨hd, hv, h23, hmm⟩ | ⟨hs, ms, hstr, hdh, hdm, hv, h23, hvm, h59⟩
  · have hnone : strchr str ':' = none :=
      strchr_none str ':' (fun x hx => isdigit_ne x _ (hd.2 x hx) (by decide))
    have hnn := decimalValue_nonneg str hd
    unfold parseDaytime
    simp only [hnone, atoi_decimal_whole str hd, hmonth, hv, hmm]
    rw [toChar_small H (by omega) (by omega)]
  · have hsome : strchr str ':' = some (':' :: ms) := by
      rw [hstr]
      exact strchr_append hs ms ':' (fun x hx => isdigit_ne x _ (hdh.2 x hx) (by decide))
    have hnn := decimalValue_nonneg hs hdh
    have hnm := decimalValue_nonneg ms hdm
    have ha : atoi str = decimalValue hs := by
      rw [hstr]
      exact atoi_decimal hs (':' :: ms) hdh rfl
    unfold parseDaytime
    simp only [hsome, ha, hmonth, List.drop_succ_cons, List.drop_zero,
      atoi_decimal_whole ms hdm, hv, hvm]
    rw [toChar_small H (by omega) (by omega), toChar_small MM (by omega) (by omega)]

theorem parseDst_wellformed (str : List Char) (M D : Int) (old : DayTimePoint)
    (h : isDstString str M D) :
    parseDst str old = ⟨M, D, 2, 0⟩ := by
  rcases h with ⟨hd, hv, h1, h12, hday⟩ |
    ⟨ms, ds, hstr, hdm, hdd, hv, h1, h12, hvd, hd1, hd31⟩
  · have hnone : strchr str '/' = none :=
      strchr_none str '/' (fun x hx => isdigit_ne x _ (hd.2 x hx) (by decide))
    unfold parseDst
    simp only [hnone, atoi_decimal_whole str hd, hv, hday]
    rw [toChar_small M (by omega) (by omega)]
  · have hsome : strchr str '/' = some ('/' :: ds) := by
      rw [hstr]
      exact strchr_append ms ds '/' (fun x hx => isdigit_ne x _ (hdm.2 x hx) (by decide))
    have ha : atoi str = decimalValue ms := by
      rw [hstr]
      exact atoi_decimal ms ('/' :: ds) hdm rfl
    unfold parseDst
    simp only [hsome, ha, List.drop_succ_cons, List.drop_zero,
      atoi_decimal_whole ds hdd, hv, hvd]
    rw [toChar_small M (by omega) (by omega), toChar_small D (by omega) (by omega)]

/-- C1: on day 15 of a month `m` in 0..11 the estimator returns the hour and
the minute of entry `m` of the table unchanged, whatever the DST markers. -/
theorem exact_anchor_identity (dst : Fin 2 → DayTimePoint)
    (monthly : Fin 12 → DayTimePoint) (now : Tm) (m : Fin 12)
    (hmon : now.tm_mon = (m.val : Int)) (hday : now.tm_mday = 15) :
    housealmanac_estimate dst monthly now =
      some { now with tm_sec := 0, tm_hour := (monthly m).hour,
                      tm_min := (monthly m).minute } :=
  exact_anchor_lemma dst monthly now m hmon hday

/-- Instance of C1: June 15 of the sample table gives 7:25, with markers
configured. -/
theorem exact_anchor_identity_witness :
    housealmanac_estimate sampleDst sampleTable (sampleTm 5 15) =
      some { sampleTm 5 15 with tm_sec := 0, tm_hour := 7, tm_min := 25 } :=
  exact_anchor_identity sampleDst sampleTable (sampleTm 5 15) 5 rfl rfl

/-- C2: the length of the sunset array is never checked.  With twelve
sunrises, two markers and only three sunsets the refresh succeeds and sets the
configured flag, and the slots from index 3 on keep their former content;
the sibling check on the sunrise array does reject eleven entries. -/
theorem refresh_accepts_short_sunset :
    (housealmanac_refresh shortSunsetConfig AlmanacState.initial).1 = none ∧
    (housealmanac_refresh shortSunsetConfig AlmanacState.initial).2.AlmanacIsConfigured
      = true ∧
    (housealmanac_refresh shortSunsetConfig AlmanacState.initial).2.AlmanacDb.sunsets 2
      = ⟨3, 15, 18, 15⟩ ∧
    (housealmanac_refresh shortSunsetConfig AlmanacState.initial).2.AlmanacDb.sunsets 3
      = DayTimePoint.zero ∧
    (housealmanac_refresh shortSunriseConfig AlmanacState.initial).1
      = some "not a valid sunrises array" := by
  decide

/-- C3: when `housealmanac_refresh` returns an error, the state after the call
(the 12 sunrises, the 12 sunsets, the 2 markers and the configured flag) is
the state before the call. -/
theorem refresh_failure_preserves_state (cfg : Config) (s : AlmanacState)
    (error : String) (herr : (housealmanac_refresh cfg s).1 = some error) :
    (housealmanac_refresh cfg s).2 = s := by
  unfold housealmanac_refresh at herr ⊢
  cases h1 : cfg.sunrise with
  | none => rfl
  | some sunrises =>
    cases h2 : cfg.sunset with
    | none => simp only []; split_ifs <;> rfl
    | some sunsets =>
      cases h3 : cfg.dst with
      | none => simp only []; split_ifs <;> rfl
      | some dst =>
        simp only [h1, h2, h3] at herr ⊢
        split_ifs at herr ⊢ <;> rfl

/-- Instance of C3: eleven sunrises are rejected and the configured sample
state is left as it was. -/
theorem refresh_failure_preserves_state_witness :
    (housealmanac_refresh shortSunriseConfig sampleState).1
      = some "not a valid sunrises array" ∧
    (housealmanac_refresh shortSunriseConfig sampleState).2 = sampleState :=
  ⟨by decide,
   refresh_failure_preserves_state shortSunriseConfig sampleState
     "not a valid sunrises array" (by decide)⟩

/-- C4: for a month in 0..11 and a day other than 15, both anchors exist and
the estimate is the regression on the two anchor times after the
first-match-wins rule `adjustedTimes`: marker 0 if it crosses, else marker 1 if
it crosses, else nothing; before the marker the upper time gets -60 (index 0)
or +60 (index 1), on or after it the lower time gets +60 (index 0) or -60
(index 1), and the other time is untouched. -/
theorem dst_adjustment_first_match (dst : Fin 2 → DayTimePoint)
    (monthly : Fin 12 → DayTimePoint) (now : Tm) (m : Fin 12)
    (hmon : now.tm_mon = (m.val : Int)) (hday : now.tm_mday ≠ 15) :
    ∃ lower upper : DayTimePoint,
      index monthly (bracket now.tm_mon now.tm_mday).m1c = some lower ∧
      index monthly (bracket now.tm_mon now.tm_mday).m2c = some upper ∧
      housealmanac_estimate dst monthly now =
        some (now.withResult
          (regression (bracket now.tm_mon now.tm_mday).m1r now.tm_mon now.tm_mday
            (adjustedTimes dst (bracket now.tm_mon now.tm_mday).m1r
              (bracket now.tm_mon now.tm_mday).m2r now.tm_mon now.tm_mday
              lower.minutes upper.minutes).1
            (adjustedTimes dst (bracket now.tm_mon now.tm_mday).m1r
              (bracket now.tm_mon now.tm_mday).m2r now.tm_mon now.tm_mday
              lower.minutes upper.minutes).2)) := by
  obtain ⟨c1, hc1⟩ := bracket_m1c_fin m now.tm_mon now.tm_mday hmon
  obtain ⟨c2, hc2⟩ := bracket_m2c_fin m now.tm_mon now.tm_mday hmon
  exact ⟨monthly c1, monthly c2, index_of_eq monthly c1 _ hc1,
    index_of_eq monthly c2 _ hc2, estimate_eq_regression dst monthly now c1 c2 hday hc1 hc2⟩

/-- Instance of C4: on March 1 the anchors are those of February and March,
the marker of March 9 (index 0) crosses and the date is before it, so the
March time is taken 60 minutes earlier and the February time as it is. -/
theorem dst_adjustment_first_match_witness :
    ∃ lower upper : DayTimePoint,
      index sampleTable 1 = some lower ∧
      index sampleTable 2 = some upper ∧
      housealmanac_estimate sampleDst sampleTable (sampleTm 2 1) =
        some ((sampleTm 2 1).withResult
          (regression 1 2 1 lower.minutes (upper.minutes - 60))) :=
  dst_adjustment_first_match sampleDst sampleTable (sampleTm 2 1) 2 rfl (by decide)

/-- C5, as stated, fails: a marker on March 15 is detected as crossing the
interval from February 15 to March 15 although it is not strictly inside,
and a marker on December 20 is not detected in the interval from December 15
to January 15 that a query on January 10 builds, although it is inside. -/
theorem crossing_is_not_strictly_inside :
    ¬ (crosses ⟨3, 15, 2, 0⟩ (bracket 2 10).m1r (bracket 2 10).m2r = true ↔
        strictlyBetweenAnchors ⟨3, 15, 2, 0⟩ (bracket 2 10).m1c (bracket 2 10).m2c) ∧
    ¬ (crosses ⟨12, 20, 2, 0⟩ (bracket 0 10).m1r (bracket 0 10).m2r = true ↔
        strictlyBetweenAnchors ⟨12, 20, 2, 0⟩ (bracket 0 10).m1c (bracket 0 10).m2c) := by
  decide

/-- C5, amended: for a marker with month in 1..12 and day in 1..31 and the
interval of a query in month 0..11 (relative months (-1,0), (m,m+1) or
(11,12)), the test is true exactly when the marker's calendar date lies after
day 15 of the lower anchor's month and on or before day 15 of the upper
anchor's month; for the two intervals over the end of the year this is stated
for the markers that are not dated in the half of the other year. -/
theorem crossing_detects_after_lower_up_to_upper (marker : DayTimePoint)
    (month day : Int) (hvalid : validMarker marker)
    (hm0 : 0 ≤ month) (hm11 : month ≤ 11)
    (hyear : ¬ inOtherYearHalf marker (bracket month day)) :
    crosses marker (bracket month day).m1r (bracket month day).m2r = true ↔
      afterLowerUpToUpper marker (bracket month day).m1c (bracket month day).m2c := by
  obtain ⟨⟨hv1, hv2⟩, hv3, hv4⟩ := hvalid
  have hlt : (bracket month day).m1r < (bracket month day).m2r := by
    unfold bracket
    split_ifs <;> dsimp only <;> omega
  rw [crosses_iff _ _ _ hlt]
  unfold inOtherYearHalf at hyear
  unfold betweenRelative afterLowerUpToUpper
  revert hyear
  unfold bracket
  clear hlt
  split_ifs <;> dsimp only at * <;> intro hyear <;> omega

/-- Instance of the amended C5: the marker of March 15 and a query on March
10, whose interval runs from February 15 to March 15. -/
theorem crossing_detects_after_lower_up_to_upper_witness :
    validMarker ⟨3, 15, 2, 0⟩ ∧ ¬ inOtherYearHalf ⟨3, 15, 2, 0⟩ (bracket 2 10) ∧
    (crosses ⟨3, 15, 2, 0⟩ (bracket 2 10).m1r (bracket 2 10).m2r = true ↔
      afterLowerUpToUpper ⟨3, 15, 2, 0⟩ (bracket 2 10).m1c (bracket 2 10).m2c) ∧
    afterLowerUpToUpper ⟨3, 15, 2, 0⟩ (bracket 2 10).m1c (bracket 2 10).m2c :=
  ⟨by decide, by decide,
   crossing_detects_after_lower_up_to_upper ⟨3, 15, 2, 0⟩ 2 10 (by decide)
      (by decide) (by decide) (by decide),
   by decide⟩

/-- C6: with anchors that are times of day and no marker detected as
crossing between the anchors of month `m` and of the following month, the
estimates for two dates `p` before `q` of the interval from day 15 of month
`m` through day 15 of the following month exist and, in minutes since
midnight, are in the order of the two anchors: non-decreasing when the lower
anchor is not after the upper one, non-increasing when it is not before. -/
theorem estimate_monotonic_in_interval (dst : Fin 2 → DayTimePoint)
    (monthly : Fin 12 → DayTimePoint) (m : Fin 12) (p q : Tm)
    (hvalid : validTable monthly) (hno : noMarkerCrosses dst m)
    (hp : inInterval m p.tm_mon p.tm_mday) (hq : inInterval m q.tm_mon q.tm_mday)
    (hpq : calendarLE m p.tm_mon p.tm_mday q.tm_mon q.tm_mday) :
    ∃ ep eq : Tm,
      housealmanac_estimate dst monthly p = some ep ∧
      housealmanac_estimate dst monthly q = some eq ∧
      ((monthly m).minutes ≤ (monthly (m + 1)).minutes → ep.minutes ≤ eq.minutes) ∧
      ((monthly (m + 1)).minutes ≤ (monthly m).minutes → eq.minutes ≤ ep.minutes) := by
  obtain ⟨ep, hep, mp, p0, p30⟩ := estimate_in_interval dst monthly m p hp hno
  obtain ⟨eq, heq, mq, q0, q30⟩ := estimate_in_interval dst monthly m q hq hno
  have hsucc := fin_succ_val m
  have hle : intervalOffset m p.tm_mon p.tm_mday ≤ intervalOffset m q.tm_mon q.tm_mday := by
    unfold inInterval at hp hq
    unfold calendarLE at hpq
    unfold intervalOffset dayOffset
    rw [hsucc] at hp hq hpq
    split_ifs at hp hq hpq ⊢ <;> omega
  have n1 := validTable_minutes_nonneg monthly hvalid m
  have n2 := validTable_minutes_nonneg monthly hvalid (m + 1)
  refine ⟨ep, eq, hep, heq, ?_, ?_⟩
  · intro h
    rw [mp, mq]
    exact interpolation_mono _ _ _ _ n1 n2 p0 hle q30 h
  · intro h
    rw [mp, mq]
    exact interpolation_anti _ _ _ _ n1 n2 p0 hle q30 h

/-- Instance of C6: June 30 and July 1 of the sample table, whose markers
are in March and November; the July anchor is the earlier one. -/
theorem estimate_monotonic_in_interval_witness :
    validTable sampleTable ∧ noMarkerCrosses sampleDst 5 ∧
    inInterval 5 (sampleTm 5 30).tm_mon (sampleTm 5 30).tm_mday ∧
    inInterval 5 (sampleTm 6 1).tm_mon (sampleTm 6 1).tm_mday ∧
    calendarLE 5 (sampleTm 5 30).tm_mon (sampleTm 5 30).tm_mday
      (sampleTm 6 1).tm_mon (sampleTm 6 1).tm_mday ∧
    ∃ ep eq : Tm,
      housealmanac_estimate sampleDst sampleTable (sampleTm 5 30) = some ep ∧
      housealmanac_estimate sampleDst sampleTable (sampleTm 6 1) = some eq ∧
      ((sampleTable 5).minutes ≤ (sampleTable (5 + 1)).minutes →
        ep.minutes ≤ eq.minutes) ∧
      ((sampleTable (5 + 1)).minutes ≤ (sampleTable 5).minutes →
        eq.minutes ≤ ep.minutes) :=
  ⟨by decide, by decide, by decide, by decide, by decide,
   estimate_monotonic_in_interval sampleDst sampleTable 5 (sampleTm 5 30)
     (sampleTm 6 1) (by decide) (by decide) (by decide) (by decide) (by decide)⟩

/-- C7: when each marker is absent or is a date outside December 15 to
January 15, the estimates for December 31 and for January 1 exist and, in
minutes since midnight, differ by at most ceil(|January - December| / 30),
the share of one day in the difference of the two anchors. -/
theorem year_boundary_continuity (dst : Fin 2 → DayTimePoint)
    (monthly : Fin 12 → DayTimePoint) (dec jan : Tm)
    (hdecm : dec.tm_mon = 11) (hdecd : dec.tm_mday = 31)
    (hjanm : jan.tm_mon = 0) (hjand : jan.tm_mday = 1)
    (hdst : ∀ i, absentMarker (dst i) ∨
      (validMarker (dst i) ∧ ¬ datedDec15ToJan15 (dst i))) :
    ∃ edec ejan : Tm,
      housealmanac_estimate dst monthly dec = some edec ∧
      housealmanac_estimate dst monthly jan = some ejan ∧
      |edec.minutes - ejan.minutes| ≤
        (|(monthly 0).minutes - (monthly 11).minutes| + 29) / 30 := by
  have hno := noMarkerCrosses_december dst hdst
  have hin1 : inInterval 11 dec.tm_mon dec.tm_mday := by
    rw [hdecm, hdecd]; decide
  have hin2 : inInterval 11 jan.tm_mon jan.tm_mday := by
    rw [hjanm, hjand]; decide
  obtain ⟨edec, h1, m1, _, _⟩ := estimate_in_interval dst monthly 11 dec hin1 hno
  obtain ⟨ejan, h2, m2, _, _⟩ := estimate_in_interval dst monthly 11 jan hin2 hno
  refine ⟨edec, ejan, h1, h2, ?_⟩
  have e1 : intervalOffset 11 dec.tm_mon dec.tm_mday = 15 := by
    rw [hdecm, hdecd]; decide
  have e2 : intervalOffset 11 jan.tm_mon jan.tm_mday = 15 := by
    rw [hjanm, hjand]; decide
  rw [m1, m2, e1, e2, sub_self, abs_zero]
  exact Int.ediv_nonneg (add_nonneg (abs_nonneg _) (by omega)) (by omega)

/-- Instance of C7: the sample table with its markers in March and November;
December 31 and January 1 both give 7:24. -/
theorem year_boundary_continuity_witness :
    (∀ i, absentMarker (sampleDst i) ∨
      (validMarker (sampleDst i) ∧ ¬ datedDec15ToJan15 (sampleDst i))) ∧
    housealmanac_estimate sampleDst sampleTable (sampleTm 11 31) =
      some { sampleTm 11 31 with tm_sec := 0, tm_hour := 7, tm_min := 24 } ∧
    housealmanac_estimate sampleDst sampleTable (sampleTm 0 1) =
      some { sampleTm 0 1 with tm_sec := 0, tm_hour := 7, tm_min := 24 } ∧
    ∃ edec ejan : Tm,
      housealmanac_estimate sampleDst sampleTable (sampleTm 11 31) = some edec ∧
      housealmanac_estimate sampleDst sampleTable (sampleTm 0 1) = some ejan ∧
      |edec.minutes - ejan.minutes| ≤
        (|(sampleTable 0).minutes - (sampleTable 11).minutes| + 29) / 30 :=
  ⟨by decide, by decide, by decide,
   year_boundary_continuity sampleDst sampleTable (sampleTm 11 31) (sampleTm 0 1)
     rfl rfl rfl rfl (by decide)⟩

/-- C8: after a successful refresh, a sunrise or sunset string at index `i`
that is "H" or "H:MM" (decimal H in 0..23, MM in 0..59) makes slot `i` month
i+1, day 15, hour H, minute MM (0 without a colon), and a dst string at index
`j` that is "M" or "M/D" (M in 1..12, D in 1..31) makes marker `j` month M,
day D (15 without a slash), hour 2, minute 0. -/
theorem entry_parsing (sunrises sunsets dst : List (Option (List Char)))
    (s : AlmanacState)
    (hok : (housealmanac_refresh ⟨some sunrises, some sunsets, some dst⟩ s).1 = none) :
    (∀ (i : Fin 12) (str : List Char) (H MM : Int),
      houseconfig_string sunrises i.val = some str → isDaytimeString str H MM →
      (housealmanac_refresh ⟨some sunrises, some sunsets, some dst⟩ s).2.AlmanacDb.sunrises i
        = ⟨(i.val : Int) + 1, 15, H, MM⟩) ∧
    (∀ (i : Fin 12) (str : List Char) (H MM : Int),
      houseconfig_string sunsets i.val = some str → isDaytimeString str H MM →
      (housealmanac_refresh ⟨some sunrises, some sunsets, some dst⟩ s).2.AlmanacDb.sunsets i
        = ⟨(i.val : Int) + 1, 15, H, MM⟩) ∧
    (∀ (j : Fin 2) (str : List Char) (M D : Int),
      houseconfig_string dst j.val = some str → isDstString str M D →
      (housealmanac_refresh ⟨some sunrises, some sunsets, some dst⟩ s).2.AlmanacDb.dst j
        = ⟨M, D, 2, 0⟩) := by
  rw [refresh_success sunrises sunsets dst s hok]
  refine ⟨?_, ?_, ?_⟩
  · intro i str H MM hstr hwf
    show fillTable sunrises parseDaytime s.AlmanacDb.sunrises i = _
    rw [fillTable_some _ _ _ i str hstr]
    exact parseDaytime_wellformed i.val i.isLt str H MM _ hwf
  · intro i str H MM hstr hwf
    show fillTable sunsets parseDaytime s.AlmanacDb.sunsets i = _
    rw [fillTable_some _ _ _ i str hstr]
    exact parseDaytime_wellformed i.val i.isLt str H MM _ hwf
  · intro j str M D hstr hwf
    show fillTable dst (fun _ => parseDst) s.AlmanacDb.dst j = _
    rw [fillTable_some _ _ _ j str hstr]
    exact parseDst_wellformed str M D _ hwf

/-- Instance of C8: "6:30" gives hour 6 minute 30, "6" gives hour 6 minute 0,
"3/20" gives month 3 day 20 and "11" gives month 11 day 15. -/
theorem entry_parsing_witness :
    (housealmanac_refresh parseConfig AlmanacState.initial).1 = none ∧
    (housealmanac_refresh parseConfig AlmanacState.initial).2.AlmanacDb.sunrises 0
      = ⟨1, 15, 6, 30⟩ ∧
    (housealmanac_refresh parseConfig AlmanacState.initial).2.AlmanacDb.sunrises 1
      = ⟨2, 15, 6, 0⟩ ∧
    (housealmanac_refresh parseConfig AlmanacState.initial).2.AlmanacDb.dst 0
      = ⟨3, 20, 2, 0⟩ ∧
    (housealmanac_refresh parseConfig AlmanacState.initial).2.AlmanacDb.dst 1
      = ⟨11, 15, 2, 0⟩ := by
  have h := entry_parsing
    (some "6:30".toList :: some "6".toList :: List.replicate 10 (some "7:05".toList))
    (List.replicate 12 (some "18:15".toList))
    [some "3/20".toList, some "11".toList] AlmanacState.initial (by decide)
  refine ⟨by decide, ?_, ?_, ?_, ?_⟩
  · exact h.1 0 "6:30".toList 6 30 rfl
      (Or.inr ⟨"6".toList, "30".toList, rfl, by decide, by decide, by decide,
        by decide, by decide, by decide⟩)
  · exact h.1 1 "6".toList 6 0 rfl
      (Or.inl ⟨by decide, by decide, by decide, rfl⟩)
  · exact h.2.2 0 "3/20".toList 3 20 rfl
      (Or.inr ⟨"3".toList, "20".toList, rfl, by decide, by decide, by decide,
        by decide, by decide, by decide, by decide, by decide⟩)
  · exact h.2.2 1 "11".toList 11 15 rfl
      (Or.inl ⟨by decide, by decide, by decide, by decide, rfl⟩)

/-- C9, as stated, fails: "abc" and the empty string do not start with a
decimal number, yet after a successful refresh of the sample state the first
sunrise slot is overwritten with hour 0 minute 0 and the second marker with
month 0, day 15, hour 2. -/
theorem malformed_string_overwrites_slot :
    startsWithDecimal "abc".toList = false ∧ startsWithDecimal "".toList = false ∧
    (housealmanac_refresh malformedConfig sampleState).1 = none ∧
    (housealmanac_refresh malformedConfig sampleState).2.AlmanacDb.sunrises 0
      = ⟨1, 15, 0, 0⟩ ∧
    (housealmanac_refresh malformedConfig sampleState).2.AlmanacDb.sunrises 0
      ≠ sampleState.AlmanacDb.sunrises 0 ∧
    (housealmanac_refresh malformedConfig sampleState).2.AlmanacDb.dst 1
      = ⟨0, 15, 2, 0⟩ ∧
    (housealmanac_refresh malformedConfig sampleState).2.AlmanacDb.dst 1
      ≠ sampleState.AlmanacDb.dst 1 := by
  decide

/-- C9, amended: after a successful refresh, every sunrise, sunset or dst
slot whose configuration element is not a string (`houseconfig_string` gives
null: the element is missing or of another type) is identical to its value
before the call. -/
theorem non_string_element_keeps_slot (sunrises sunsets dst : List (Option (List Char)))
    (s : AlmanacState)
    (hok : (housealmanac_refresh ⟨some sunrises, some sunsets, some dst⟩ s).1 = none) :
    (∀ i : Fin 12, houseconfig_string sunrises i.val = none →
      (housealmanac_refresh ⟨some sunrises, some sunsets, some dst⟩ s).2.AlmanacDb.sunrises i
        = s.AlmanacDb.sunrises i) ∧
    (∀ i : Fin 12, houseconfig_string sunsets i.val = none →
      (housealmanac_refresh ⟨some sunrises, some sunsets, some dst⟩ s).2.AlmanacDb.sunsets i
        = s.AlmanacDb.sunsets i) ∧
    (∀ j : Fin 2, houseconfig_string dst j.val = none →
      (housealmanac_refresh ⟨some sunrises, some sunsets, some dst⟩ s).2.AlmanacDb.dst j
        = s.AlmanacDb.dst j) := by
  rw [refresh_success sunrises sunsets dst s hok]
  exact ⟨fun i h => fillTable_none _ _ _ i h, fun i h => fillTable_none _ _ _ i h,
    fun j h => fillTable_none _ _ _ j h⟩

/-- Instance of the amended C9: the first sunrise, the second sunset and the
second marker of the configuration are not strings, and the three slots of
the sample state are kept. -/
theorem non_string_element_keeps_slot_witness :
    (housealmanac_refresh holeConfig sampleState).1 = none ∧
    (housealmanac_refresh holeConfig sampleState).2.AlmanacDb.sunrises 0
      = sampleState.AlmanacDb.sunrises 0 ∧
    (housealmanac_refresh holeConfig sampleState).2.AlmanacDb.sunsets 1
      = sampleState.AlmanacDb.sunsets 1 ∧
    (housealmanac_refresh holeConfig sampleState).2.AlmanacDb.dst 1
      = sampleState.AlmanacDb.dst 1 := by
  have h := non_string_element_keeps_slot
    (none :: List.replicate 11 (some "6:30".toList))
    (some "18:15".toList :: none :: List.replicate 10 (some "18:15".toList))
    [some "3/9".toList, none] sampleState (by decide)
  exact ⟨by decide, h.1 0 rfl, h.2.1 1 rfl, h.2.2 1 rfl⟩

/-- C10: a DST slot with month 0 and day 0 is never detected as crossing,
neither for the intervals (-1,0), (m,m+1) with 0 <= m <= 10 and (11,12) nor
for the interval of any query in month 0..11; and when both slots are absent
the estimate for a day other than 15 is the regression on the two anchor
times as the table gives them. -/
theorem absent_marker_never_crosses (dst : Fin 2 → DayTimePoint) (i : Fin 2)
    (habs : absentMarker (dst i)) (monthly : Fin 12 → DayTimePoint) (now : Tm)
    (m : Fin 12) (hmon : now.tm_mon = (m.val : Int)) :
    crosses (dst i) (-1) 0 = false ∧
    (∀ k : Int, 0 ≤ k → k ≤ 10 → crosses (dst i) k (k + 1) = false) ∧
    crosses (dst i) 11 12 = false ∧
    crosses (dst i) (bracket now.tm_mon now.tm_mday).m1r
      (bracket now.tm_mon now.tm_mday).m2r = false ∧
    ((∀ j, absentMarker (dst j)) → now.tm_mday ≠ 15 →
      ∃ lower upper : DayTimePoint,
        index monthly (bracket now.tm_mon now.tm_mday).m1c = some lower ∧
        index monthly (bracket now.tm_mon now.tm_mday).m2c = some upper ∧
        housealmanac_estimate dst monthly now =
          some (now.withResult
            (regression (bracket now.tm_mon now.tm_mday).m1r now.tm_mon now.tm_mday
              lower.minutes upper.minutes))) := by
  have hb : -1 ≤ (bracket now.tm_mon now.tm_mday).m1r ∧
      -1 ≤ (bracket now.tm_mon now.tm_mday).m2r := by
    unfold bracket
    split_ifs <;> dsimp only <;> omega
  refine ⟨crosses_absent _ habs _ _ (by omega) (by omega),
    fun k hk0 _ => crosses_absent _ habs _ _ (by omega) (by omega),
    crosses_absent _ habs _ _ (by omega) (by omega),
    crosses_absent _ habs _ _ hb.1 hb.2, ?_⟩
  intro hall hday
  obtain ⟨c1, hc1⟩ := bracket_m1c_fin m now.tm_mon now.tm_mday hmon
  obtain ⟨c2, hc2⟩ := bracket_m2c_fin m now.tm_mon now.tm_mday hmon
  refine ⟨monthly c1, monthly c2, index_of_eq monthly c1 _ hc1,
    index_of_eq monthly c2 _ hc2, ?_⟩
  rw [estimate_eq_regression dst monthly now c1 c2 hday hc1 hc2,
    adjustedTimes_of_no_crossing dst _ _ _ _ _ _
      (fun j => crosses_absent _ (hall j) _ _ hb.1 hb.2)]

/-- Instance of C10: with no marker configured, the estimate for January 1 of
the sample table is the regression between the December anchor 7:19 and the
January anchor 7:30, which is 7:24. -/
theorem absent_marker_never_crosses_witness :
    absentMarker DayTimePoint.zero ∧
    crosses DayTimePoint.zero (-1) 0 = false ∧
    housealmanac_estimate (fun _ => DayTimePoint.zero) sampleTable (sampleTm 0 1) =
      some { sampleTm 0 1 with tm_sec := 0, tm_hour := 7, tm_min := 24 } := by
  have h := absent_marker_never_crosses (fun _ => DayTimePoint.zero) 0 (by decide)
    sampleTable (sampleTm 0 1) 0 rfl
  obtain ⟨lower, upper, h1, h2, h3⟩ :=
    h.2.2.2.2 (fun _ => (by decide : absentMarker DayTimePoint.zero)) (by decide)
  have e1 : index sampleTable (bracket (sampleTm 0 1).tm_mon (sampleTm 0 1).tm_mday).m1c
      = some (sampleTable 11) := by decide
  have e2 : index sampleTable (bracket (sampleTm 0 1).tm_mon (sampleTm 0 1).tm_mday).m2c
      = some (sampleTable 0) := by decide
  rw [e1] at h1
  rw [e2] at h2
  cases h1
  cases h2
  refine ⟨by decide, h.1, ?_⟩
  rw [h3]
  decide

/-- C17: `housealmanac_before` is true exactly when the pair (month, day) is
strictly smaller than (marker.month - 1, marker.day) in lexicographic order,
month first and day on a tie, for all integers month and day; it is false
when the two pairs are equal. -/
theorem before_is_strict_lexicographic (marker : DayTimePoint) (month day : Int) :
    (housealmanac_before marker month day = true ↔
      Prod.Lex (fun a b : Int => a < b) (fun a b : Int => a < b)
        (month, day) (marker.month - 1, marker.day)) ∧
    (housealmanac_before marker month day = true ↔
      (month < marker.month - 1 ∨ (month = marker.month - 1 ∧ day < marker.day))) ∧
    housealmanac_before marker (marker.month - 1) marker.day = false := by
  refine ⟨?_, before_iff marker month day, ?_⟩
  · rw [Prod.lex_def]
    exact before_iff marker month day
  · rw [← Bool.not_eq_true, before_iff]
    omega

/-- C16: for a month in 0..11 and any day, the days 1..31 among them, both
anchor indices lie in 0..11, both anchors exist and the estimator returns a
result, for every table and every pair of markers (the marker index runs over
the two slots `Fin 2` and the divisors are the constants 30 and 60). -/
theorem estimator_is_total (dst : Fin 2 → DayTimePoint)
    (monthly : Fin 12 → DayTimePoint) (now : Tm) (m : Fin 12)
    (hmon : now.tm_mon = (m.val : Int)) :
    (0 ≤ (bracket now.tm_mon now.tm_mday).m1c ∧
      (bracket now.tm_mon now.tm_mday).m1c ≤ 11) ∧
    (0 ≤ (bracket now.tm_mon now.tm_mday).m2c ∧
      (bracket now.tm_mon now.tm_mday).m2c ≤ 11) ∧
    (∃ lower upper : DayTimePoint,
      index monthly (bracket now.tm_mon now.tm_mday).m1c = some lower ∧
      index monthly (bracket now.tm_mon now.tm_mday).m2c = some upper) ∧
    ∃ result : Tm, housealmanac_estimate dst monthly now = some result := by
  obtain ⟨c1, hc1⟩ := bracket_m1c_fin m now.tm_mon now.tm_mday hmon
  obtain ⟨c2, hc2⟩ := bracket_m2c_fin m now.tm_mon now.tm_mday hmon
  refine ⟨by omega, by omega,
    ⟨monthly c1, monthly c2, index_of_eq monthly c1 _ hc1, index_of_eq monthly c2 _ hc2⟩,
    ?_⟩
  by_cases hday : now.tm_mday = 15
  · exact ⟨_, exact_anchor_lemma dst monthly now m hmon hday⟩
  · exact ⟨_, estimate_eq_regression dst monthly now c1 c2 hday hc1 hc2⟩

/-- Instance of C16: February 31 of the sample table (a day the calendar does
not have but the range 1..31 allows) gives 6:58, the marker of March 9 lying
ahead. -/
theorem estimator_is_total_witness :
    housealmanac_estimate sampleDst sampleTable (sampleTm 1 31) =
      some { sampleTm 1 31 with tm_sec := 0, tm_hour := 6, tm_min := 58 } ∧
    ∃ result : Tm,
      housealmanac_estimate sampleDst sampleTable (sampleTm 1 31) = some result :=
  ⟨by decide,
   (estimator_is_total sampleDst sampleTable (sampleTm 1 31) 1 rfl).2.2.2⟩

theorem tdiv_thirty_cases (n : Int) :
    (0 ≤ n ∧ n.tdiv 30 = n / 30) ∨ (n < 0 ∧ n.tdiv 30 = -((-n) / 30)) := by
  rcases le_or_lt 0 n with h | h
  · exact Or.inl ⟨h, Int.tdiv_eq_ediv h (by omega)⟩
  · right
    refine ⟨h, ?_⟩
    have e : n = -(-n) := by omega
    rw [e, Int.neg_tdiv, Int.tdiv_eq_ediv (by omega) (by omega)]
    simp

theorem tdiv_between (a b x : Int) (hx0 : 0 ≤ x) (hx30 : x ≤ 30) :
    min a b ≤ ((30 - x) * a + x * b).tdiv 30 ∧
    ((30 - x) * a + x * b).tdiv 30 ≤ max a b := by
  have h1 : 30 * min a b ≤ (30 - x) * a + x * b := by
    have ha : min a b ≤ a := min_le_left a b
    have hb : min a b ≤ b := min_le_right a b
    nlinarith [mul_nonneg (sub_nonneg.mpr hx30) (sub_nonneg.mpr ha),
      mul_nonneg hx0 (sub_nonneg.mpr hb)]
  have h2 : (30 - x) * a + x * b ≤ 30 * max a b := by
    have ha : a ≤ max a b := le_max_left a b
    have hb : b ≤ max a b := le_max_right a b
    nlinarith [mul_nonneg (sub_nonneg.mpr hx30) (sub_nonneg.mpr ha),
      mul_nonneg hx0 (sub_nonneg.mpr hb)]
  generalize (30 - x) * a + x * b = n at h1 h2
  generalize min a b = lo at h1
  generalize max a b = hi at h2
  rcases tdiv_thirty_cases n with ⟨h, e⟩ | ⟨h, e⟩ <;> rw [e] <;> omega

theorem dayOffset_range (day : Int) (hd1 : 1 ≤ day) (hd31 : day ≤ 31)
    (hday : day ≠ 15) : 0 ≤ dayOffset day ∧ dayOffset day ≤ 28 := by
  unfold dayOffset
  split_ifs <;> omega

/-- C18: for a month in 0..11 and a day in 1..31 other than 15, with
x = day - 16 after day 15 and x = day + 14 before, the value
(a*(month*30 + day - 1) + b) / 30 of the estimator equals the truncating
quotient ((30 - x)*T1 + x*T2) / 30 for all times T1 and T2, whatever the month
and the relative months; the estimate is that quotient at the adjusted anchor
times; and when no marker crosses, day 16 gives the anchor of the month in
minutes, as day 15 does. -/
theorem interpolation_closed_form (dst : Fin 2 → DayTimePoint)
    (monthly : Fin 12 → DayTimePoint) (now : Tm) (m : Fin 12)
    (hmon : now.tm_mon = (m.val : Int))
    (hd1 : 1 ≤ now.tm_mday) (hd31 : now.tm_mday ≤ 31) (hday : now.tm_mday ≠ 15) :
    (∀ T1 T2 : Int,
      regression (bracket now.tm_mon now.tm_mday).m1r now.tm_mon now.tm_mday T1 T2 =
        ((30 - dayOffset now.tm_mday) * T1 + dayOffset now.tm_mday * T2).tdiv 30) ∧
    (0 ≤ dayOffset now.tm_mday ∧ dayOffset now.tm_mday ≤ 28) ∧
    (∃ lower upper : DayTimePoint,
      index monthly (bracket now.tm_mon now.tm_mday).m1c = some lower ∧
      index monthly (bracket now.tm_mon now.tm_mday).m2c = some upper ∧
      housealmanac_estimate dst monthly now =
        some (now.withResult
          (((30 - dayOffset now.tm_mday) *
              (adjustedTimes dst (bracket now.tm_mon now.tm_mday).m1r
                (bracket now.tm_mon now.tm_mday).m2r now.tm_mon now.tm_mday
                lower.minutes upper.minutes).1 +
            dayOffset now.tm_mday *
              (adjustedTimes dst (bracket now.tm_mon now.tm_mday).m1r
                (bracket now.tm_mon now.tm_mday).m2r now.tm_mon now.tm_mday
                lower.minutes upper.minutes).2).tdiv 30))) ∧
    (now.tm_mday = 16 →
      (∀ i, crosses (dst i) (bracket now.tm_mon now.tm_mday).m1r
        (bracket now.tm_mon now.tm_mday).m2r = false) →
      ∃ r16 r15 : Tm,
        housealmanac_estimate dst monthly now = some r16 ∧
        housealmanac_estimate dst monthly { now with tm_mday := 15 } = some r15 ∧
        r16.minutes = (monthly m).minutes ∧ r15.minutes = (monthly m).minutes) := by
  have hm0 : 0 ≤ now.tm_mon := by omega
  have hm11 : now.tm_mon ≤ 11 := by omega
  obtain ⟨c1, hc1⟩ := bracket_m1c_fin m now.tm_mon now.tm_mday hmon
  obtain ⟨c2, hc2⟩ := bracket_m2c_fin m now.tm_mon now.tm_mday hmon
  have hest := estimate_eq_regression dst monthly now c1 c2 hday hc1 hc2
  refine ⟨fun T1 T2 => regression_bracket _ _ T1 T2 hm0 hm11,
    dayOffset_range _ hd1 hd31 hday,
    ⟨monthly c1, monthly c2, index_of_eq monthly c1 _ hc1, index_of_eq monthly c2 _ hc2, ?_⟩,
    ?_⟩
  · rw [hest, regression_bracket _ _ _ _ hm0 hm11]
  · intro h16 hno
    obtain ⟨b1, _, _, _⟩ := bracket_first_half m now.tm_mon now.tm_mday hmon (by omega)
    have hcm : c1 = m := by
      apply Fin.ext
      have := hc1.symm.trans b1
      omega
    refine ⟨_, _, hest,
      exact_anchor_lemma dst monthly { now with tm_mday := 15 } m hmon rfl, ?_, ?_⟩
    · rw [withResult_minutes, adjustedTimes_of_no_crossing dst _ _ _ _ _ _ hno,
        regression_bracket _ _ _ _ hm0 hm11, hcm]
      have hx : dayOffset now.tm_mday = 0 := by
        rw [h16]; rfl
      rw [hx]
      simp
    · rfl

/-- Instance of C18: June 16 and June 15 of the sample table both give the
June anchor 7:25, no marker crossing the interval from June to July. -/
theorem interpolation_closed_form_witness :
    housealmanac_estimate sampleDst sampleTable (sampleTm 5 16) =
      some { sampleTm 5 16 with tm_sec := 0, tm_hour := 7, tm_min := 25 } ∧
    ∃ r16 r15 : Tm,
      housealmanac_estimate sampleDst sampleTable (sampleTm 5 16) = some r16 ∧
      housealmanac_estimate sampleDst sampleTable
        { sampleTm 5 16 with tm_mday := 15 } = some r15 ∧
      r16.minutes = (sampleTable 5).minutes ∧ r15.minutes = (sampleTable 5).minutes :=
  ⟨by decide,
   (interpolation_closed_form sampleDst sampleTable (sampleTm 5 16) 5 rfl
      (by decide) (by decide) (by decide)).2.2.2 rfl (by decide)⟩

theorem noMarkerCrosses_absent (dst : Fin 2 → DayTimePoint)
    (habs : ∀ j, absentMarker (dst j)) (m : Fin 12) : noMarkerCrosses dst m := by
  intro i
  split_ifs
  · exact ⟨crosses_absent _ (habs i) _ _ (by omega) (by omega),
      crosses_absent _ (habs i) _ _ (by omega) (by omega)⟩
  · exact crosses_absent _ (habs i) _ _ (by omega) (by omega)

/-- C15: with anchors that are times of day, no marker configured and December
and January anchors at least two minutes apart, the estimate for January 1
exists, equals the formula of step 5 computed by hand with lower relative
month -1 (a = Jan - Dec, b = 30*Dec - a*((-1)*30 + 15), result
(a*(0*30 + (1 - 1)) + b) / 30), and lies strictly between the two anchor
times. -/
theorem january_first_between_anchors (dst : Fin 2 → DayTimePoint)
    (monthly : Fin 12 → DayTimePoint) (now : Tm)
    (hvalid : validTable monthly) (habs : ∀ j, absentMarker (dst j))
    (hmon : now.tm_mon = 0) (hday : now.tm_mday = 1)
    (hdiff : 2 ≤ |(monthly 0).minutes - (monthly 11).minutes|) :
    ∃ r : Tm,
      housealmanac_estimate dst monthly now = some r ∧
      r.minutes =
        ((((monthly 0).minutes - (monthly 11).minutes) * ((0 * 30) + (1 - 1))) +
          ((30 * (monthly 11).minutes) -
            (((monthly 0).minutes - (monthly 11).minutes) * (((-1) * 30) + 15)))).tdiv 30 ∧
      min (monthly 11).minutes (monthly 0).minutes < r.minutes ∧
      r.minutes < max (monthly 11).minutes (monthly 0).minutes := by
  have hin : inInterval 11 now.tm_mon now.tm_mday := by
    rw [hmon, hday]; decide
  obtain ⟨r, hr, hmin, _, _⟩ :=
    estimate_in_interval dst monthly 11 now hin (noMarkerCrosses_absent dst habs 11)
  have hoff : intervalOffset 11 now.tm_mon now.tm_mday = 15 := by
    rw [hmon, hday]; decide
  have h0 : (11 + 1 : Fin 12) = 0 := rfl
  rw [hoff, h0] at hmin
  have n1 := validTable_minutes_nonneg monthly hvalid 11
  have n0 := validTable_minutes_nonneg monthly hvalid 0
  generalize (monthly 11).minutes = dec at *
  generalize (monthly 0).minutes = jan at *
  have hnum : (30 - 15) * dec + 15 * jan =
      ((jan - dec) * ((0 * 30) + (1 - 1))) + ((30 * dec) - ((jan - dec) * (((-1) * 30) + 15))) := by
    ring
  refine ⟨r, hr, ?_, ?_, ?_⟩
  · rw [hmin, hnum]
  · rw [hmin, Int.tdiv_eq_ediv (by omega) (by omega)]
    rcases le_total dec jan with h | h
    · rw [abs_of_nonneg (by omega)] at hdiff
      rw [min_eq_left h]
      omega
    · rw [abs_of_nonpos (by omega)] at hdiff
      rw [min_eq_right h]
      omega
  · rw [hmin, Int.tdiv_eq_ediv (by omega) (by omega)]
    rcases le_total dec jan with h | h
    · rw [abs_of_nonneg (by omega)] at hdiff
      rw [max_eq_right h]
      omega
    · rw [abs_of_nonpos (by omega)] at hdiff
      rw [max_eq_left h]
      omega

/-- Instance of C15: the sample table has 7:19 in December and 7:30 in
January, and January 1 gives 7:24. -/
theorem january_first_between_anchors_witness :
    validTable sampleTable ∧
    2 ≤ |(sampleTable 0).minutes - (sampleTable 11).minutes| ∧
    housealmanac_estimate (fun _ => DayTimePoint.zero) sampleTable (sampleTm 0 1) =
      some { sampleTm 0 1 with tm_sec := 0, tm_hour := 7, tm_min := 24 } ∧
    ∃ r : Tm,
      housealmanac_estimate (fun _ => DayTimePoint.zero) sampleTable (sampleTm 0 1)
        = some r ∧
      r.minutes =
        ((((sampleTable 0).minutes - (sampleTable 11).minutes) * ((0 * 30) + (1 - 1))) +
          ((30 * (sampleTable 11).minutes) -
            (((sampleTable 0).minutes - (sampleTable 11).minutes) *
              (((-1) * 30) + 15)))).tdiv 30 ∧
      min (sampleTable 11).minutes (sampleTable 0).minutes < r.minutes ∧
      r.minutes < max (sampleTable 11).minutes (sampleTable 0).minutes :=
  ⟨by decide, by decide, by decide,
   january_first_between_anchors (fun _ => DayTimePoint.zero) sampleTable (sampleTm 0 1)
     (by decide) (fun _ => (by decide : absentMarker DayTimePoint.zero)) rfl rfl
     (by decide)⟩

theorem adjustedTimes_upper_on_anchor (dst : Fin 2 → DayTimePoint)
    (m1r month lower upper : Int) (h : m1r < month) :
    (adjustedTimes dst m1r month month 15 lower upper).2 = upper := by
  have key : ∀ d : DayTimePoint, crosses d m1r month = true →
      housealmanac_before d month 15 = false := by
    intro d hc
    rw [crosses_iff d m1r month h] at hc
    unfold betweenRelative at hc
    rw [← Bool.not_eq_true, before_iff]
    omega
  unfold adjustedTimes
  split_ifs with c0 b0 c1 b1
  · rw [key _ c0] at b0; cases b0
  · rfl
  · rw [key _ c1] at b1; cases b1
  · rfl
  · rfl

theorem validTable_minutes_range (monthly : Fin 12 → DayTimePoint)
    (hvalid : validTable monthly) (i : Fin 12) :
    0 ≤ (monthly i).minutes ∧ (monthly i).minutes ≤ 1439 := by
  obtain ⟨⟨h1, h2⟩, h3, h4⟩ := hvalid i
  unfold DayTimePoint.minutes
  omega

theorem withResult_time_of_day (now : Tm) (result : Int) (h0 : 0 ≤ result)
    (h1 : result ≤ 1439) :
    (0 ≤ (now.withResult result).tm_hour ∧ (now.withResult result).tm_hour ≤ 23) ∧
    (0 ≤ (now.withResult result).tm_min ∧ (now.withResult result).tm_min ≤ 59) := by
  unfold Tm.withResult
  dsimp only
  rw [Int.tdiv_eq_ediv h0 (by omega), Int.tmod_eq_emod h0 (by omega)]
  omega

/-- C19: for anchors that are times of day, every pair of markers, a month in
0..11 and a day in 1..31, the estimate in minutes since midnight lies between
the minimum and the maximum of the two bracketing anchor times after the DST
adjustment, both included; and when no marker is detected as crossing, the
returned hour is in 0..23 and the returned minute in 0..59. -/
theorem estimate_within_anchors (dst : Fin 2 → DayTimePoint)
    (monthly : Fin 12 → DayTimePoint) (now : Tm) (m : Fin 12)
    (hvalid : validTable monthly) (hmon : now.tm_mon = (m.val : Int))
    (hd1 : 1 ≤ now.tm_mday) (hd31 : now.tm_mday ≤ 31) :
    ∃ (lower upper : DayTimePoint) (r : Tm),
      index monthly (bracket now.tm_mon now.tm_mday).m1c = some lower ∧
      index monthly (bracket now.tm_mon now.tm_mday).m2c = some upper ∧
      housealmanac_estimate dst monthly now = some r ∧
      min (adjustedTimes dst (bracket now.tm_mon now.tm_mday).m1r
            (bracket now.tm_mon now.tm_mday).m2r now.tm_mon now.tm_mday
            lower.minutes upper.minutes).1
          (adjustedTimes dst (bracket now.tm_mon now.tm_mday).m1r
            (bracket now.tm_mon now.tm_mday).m2r now.tm_mon now.tm_mday
            lower.minutes upper.minutes).2 ≤ r.minutes ∧
      r.minutes ≤
        max (adjustedTimes dst (bracket now.tm_mon now.tm_mday).m1r
              (bracket now.tm_mon now.tm_mday).m2r now.tm_mon now.tm_mday
              lower.minutes upper.minutes).1
            (adjustedTimes dst (bracket now.tm_mon now.tm_mday).m1r
              (bracket now.tm_mon now.tm_mday).m2r now.tm_mon now.tm_mday
              lower.minutes upper.minutes).2 ∧
      ((∀ i, crosses (dst i) (bracket now.tm_mon now.tm_mday).m1r
          (bracket now.tm_mon now.tm_mday).m2r = false) →
        (0 ≤ r.tm_hour ∧ r.tm_hour ≤ 23) ∧ (0 ≤ r.tm_min ∧ r.tm_min ≤ 59)) := by
  have hm0 : 0 ≤ now.tm_mon := by omega
  have hm11 : now.tm_mon ≤ 11 := by omega
  obtain ⟨c1, hc1⟩ := bracket_m1c_fin m now.tm_mon now.tm_mday hmon
  obtain ⟨c2, hc2⟩ := bracket_m2c_fin m now.tm_mon now.tm_mday hmon
  by_cases hday : now.tm_mday = 15
  · have hb : (bracket now.tm_mon now.tm_mday).m2c = now.tm_mon ∧
        (bracket now.tm_mon now.tm_mday).m2r = now.tm_mon ∧
        (bracket now.tm_mon now.tm_mday).m1r < now.tm_mon := by
      rw [hday]
      unfold bracket
      split_ifs <;> dsimp only <;> omega
    have hcm : c2 = m := by
      apply Fin.ext
      have := hc2.symm.trans (hb.1.trans hmon)
      omega
    have hup := adjustedTimes_upper_on_anchor dst (bracket now.tm_mon now.tm_mday).m1r
      now.tm_mon (monthly c1).minutes (monthly c2).minutes hb.2.2
    refine ⟨monthly c1, monthly c2, _, index_of_eq monthly c1 _ hc1,
      index_of_eq monthly c2 _ hc2,
      exact_anchor_lemma dst monthly now m hmon hday, ?_, ?_, ?_⟩
    · rw [hb.2.1, hday] at *
      rw [hup, hcm]
      exact min_le_right _ _
    · rw [hb.2.1, hday] at *
      rw [hup, hcm]
      exact le_max_right _ _
    · intro _
      exact hvalid m
  · have hx := dayOffset_range _ hd1 hd31 hday
    refine ⟨monthly c1, monthly c2, _, index_of_eq monthly c1 _ hc1,
      index_of_eq monthly c2 _ hc2,
      estimate_eq_regression dst monthly now c1 c2 hday hc1 hc2, ?_, ?_, ?_⟩
    · rw [withResult_minutes, regression_bracket _ _ _ _ hm0 hm11]
      exact (tdiv_between _ _ _ hx.1 (by omega)).1
    · rw [withResult_minutes, regression_bracket _ _ _ _ hm0 hm11]
      exact (tdiv_between _ _ _ hx.1 (by omega)).2
    · intro hno
      rw [adjustedTimes_of_no_crossing dst _ _ _ _ _ _ hno,
        regression_bracket _ _ _ _ hm0 hm11]
      have r1 := validTable_minutes_range monthly hvalid c1
      have r2 := validTable_minutes_range monthly hvalid c2
      have hb := tdiv_between (monthly c1).minutes (monthly c2).minutes
        (dayOffset now.tm_mday) hx.1 (by omega)
      apply withResult_time_of_day
      · exact le_trans (le_min r1.1 r2.1) hb.1
      · exact le_trans hb.2 (max_le r1.2 r2.2)

/-- Instance of C19: March 1 of the sample table, with the marker of March 9
ahead: the adjusted anchors are 7:29 and 6:28 and the estimate is 6:58. -/
theorem estimate_within_anchors_witness :
    validTable sampleTable ∧
    housealmanac_estimate sampleDst sampleTable (sampleTm 2 1) =
      some { sampleTm 2 1 with tm_sec := 0, tm_hour := 6, tm_min := 58 } ∧
    ∃ (lower upper : DayTimePoint) (r : Tm),
      index sampleTable 1 = some lower ∧
      index sampleTable 2 = some upper ∧
      housealmanac_estimate sampleDst sampleTable (sampleTm 2 1) = some r ∧
      min lower.minutes (upper.minutes - 60) ≤ r.minutes ∧
      r.minutes ≤ max lower.minutes (upper.minutes - 60) ∧
      ((∀ i, crosses (sampleDst i) 1 2 = false) →
        (0 ≤ r.tm_hour ∧ r.tm_hour ≤ 23) ∧ (0 ≤ r.tm_min ∧ r.tm_min ≤ 59)) :=
  ⟨by decide, by decide,
   estimate_within_anchors sampleDst sampleTable (sampleTm 2 1) 2 (by decide) rfl
     (by decide) (by decide)⟩

theorem adjustedTimes_single (dst : Fin 2 → DayTimePoint) (i : Fin 2)
    (m1r m2r month day lower upper : Int)
    (hother : ∀ j, j ≠ i → crosses (dst j) m1r m2r = false)
    (hcross : crosses (dst i) m1r m2r = true) :
    adjustedTimes dst m1r m2r month day lower upper =
      if housealmanac_before (dst i) month day then
        (lower, upper + (if i = 0 then -60 else 60))
      else (lower + (if i = 0 then 60 else -60), upper) := by
  unfold adjustedTimes
  fin_cases i
  · simp only [Fin.zero_eta] at hcross ⊢
    rw [if_pos hcross]
    split_ifs <;> rfl
  · simp only [Fin.mk_one] at hcross ⊢
    have h0 := hother 0 (by decide)
    have h10 : ¬ ((1 : Fin 2) = 0) := by decide
    rw [if_neg (by simp [h0]), if_pos hcross, if_neg h10, if_neg h10]
    split_ifs <;> rfl

theorem thirty_same (x a : Int) : ((30 - x) * a + x * a).tdiv 30 = a := by
  have e : (30 - x) * a + x * a = 30 * a := by ring
  rw [e]
  exact Int.mul_tdiv_cancel_left a (by omega)

theorem estimate_beside_marker (dst : Fin 2 → DayTimePoint)
    (monthly : Fin 12 → DayTimePoint) (i : Fin 2) (now : Tm)
    (hother : ∀ j, j ≠ i → absentMarker (dst j))
    (hvalid : validMarker (dst i))
    (hbetween : strictlyBetweenAnchors (dst i) 11 0)
    (hsign : (monthly 0).minutes =
      (monthly 11).minutes + (if i = 0 then 60 else -60))
    (hmon : now.tm_mon = (dst i).month - 1)
    (hin : inInterval 11 now.tm_mon now.tm_mday) :
    ∃ r : Tm, housealmanac_estimate dst monthly now = some r ∧
      r.minutes =
        if housealmanac_before (dst i) now.tm_mon now.tm_mday then (monthly 11).minutes
        else (monthly 0).minutes := by
  obtain ⟨⟨v1, v2⟩, v3, v4⟩ := hvalid
  unfold strictlyBetweenAnchors at hbetween
  rw [if_neg (by omega)] at hbetween
  have h0 : ((11 + 1 : Fin 12).val : Int) = 0 := rfl
  have h110 : (11 + 1 : Fin 12) = 0 := rfl
  have h11 : ((11 : Fin 12).val : Int) = 11 := rfl
  unfold inInterval at hin
  rw [h0, h11] at hin
  by_cases hday : now.tm_mday = 15
  · rcases hin with ⟨hm, _, _⟩ | ⟨hm, _, _⟩
    · refine ⟨_, exact_anchor_lemma dst monthly now 11 hm hday, ?_⟩
      have hb : housealmanac_before (dst i) now.tm_mon now.tm_mday = true := by
        rw [before_iff]; omega
      rw [hb]
      rfl
    · refine ⟨_, exact_anchor_lemma dst monthly now 0 hm hday, ?_⟩
      have hb : housealmanac_before (dst i) now.tm_mon now.tm_mday = false := by
        rw [← Bool.not_eq_true, before_iff]; omega
      rw [hb]
      rfl
  · have hbr : (bracket now.tm_mon now.tm_mday).m1c = ((11 : Fin 12).val : Int) ∧
        (bracket now.tm_mon now.tm_mday).m2c = ((11 + 1 : Fin 12).val : Int) ∧
        -1 ≤ (bracket now.tm_mon now.tm_mday).m1r ∧
        (bracket now.tm_mon now.tm_mday).m1r < (bracket now.tm_mon now.tm_mday).m2r ∧
        betweenRelative (dst i) (bracket now.tm_mon now.tm_mday).m1r
          (bracket now.tm_mon now.tm_mday).m2r := by
      rw [h0, h11]
      unfold betweenRelative bracket
      rcases hin with ⟨hm, _, _⟩ | ⟨hm, _, _⟩ <;>
        split_ifs <;> dsimp only <;> omega
    obtain ⟨b1, b2, b3, b4, b5⟩ := hbr
    have hcross : crosses (dst i) (bracket now.tm_mon now.tm_mday).m1r
        (bracket now.tm_mon now.tm_mday).m2r = true :=
      (crosses_iff _ _ _ b4).mpr b5
    have hoth : ∀ j, j ≠ i → crosses (dst j) (bracket now.tm_mon now.tm_mday).m1r
        (bracket now.tm_mon now.tm_mday).m2r = false :=
      fun j hj => crosses_absent _ (hother j hj) _ _ b3 (by omega)
    have hm0 : 0 ≤ now.tm_mon ∧ now.tm_mon ≤ 11 := by
      rcases hin with ⟨hm, _, _⟩ | ⟨hm, _, _⟩ <;> omega
    refine ⟨_, estimate_eq_regression dst monthly now 11 (11 + 1) hday b1 b2, ?_⟩
    rw [withResult_minutes, regression_bracket _ _ _ _ hm0.1 hm0.2,
      adjustedTimes_single dst i _ _ _ _ _ _ hoth hcross, h110, hsign]
    by_cases hb : housealmanac_before (dst i) now.tm_mon now.tm_mday = true
    · rw [if_pos hb, if_pos hb]
      dsimp only
      have e : (monthly 11).minutes + (if i = 0 then 60 else -60) +
          (if i = 0 then -60 else 60) = (monthly 11).minutes := by
        split_ifs <;> ring
      rw [e]
      exact thirty_same _ _
    · rw [if_neg hb, if_neg hb]
      dsimp only
      exact thirty_same _ _

/-- C14, as stated, fails.  With 7:00 in December, 8:00 in January and the
single marker on January 5 in slot 0, the estimate is 7:00 on January 4 and
8:00 on January 5, a step of 60 minutes at the marker date, and 7:30 on
December 31 against 7:00 on January 1; with 8:00 in December and 7:00 in
January, January 1 and January 2 are 4 minutes apart. -/
theorem dst_compensation_is_not_a_ramp :
    |(stepTable 0).minutes - (stepTable 11).minutes| = 60 ∧
    |(reverseStepTable 0).minutes - (reverseStepTable 11).minutes| = 60 ∧
    validMarker (januaryMarker 0) ∧ strictlyBetweenAnchors (januaryMarker 0) 11 0 ∧
    absentMarker (januaryMarker 1) ∧
    (housealmanac_estimate januaryMarker stepTable (sampleTm 0 4)).map Tm.minutes
      = some 420 ∧
    (housealmanac_estimate januaryMarker stepTable (sampleTm 0 5)).map Tm.minutes
      = some 480 ∧
    (housealmanac_estimate januaryMarker stepTable (sampleTm 11 31)).map Tm.minutes
      = some 450 ∧
    (housealmanac_estimate januaryMarker stepTable (sampleTm 0 1)).map Tm.minutes
      = some 420 ∧
    (housealmanac_estimate januaryMarker reverseStepTable (sampleTm 0 1)).map Tm.minutes
      = some 420 ∧
    (housealmanac_estimate januaryMarker reverseStepTable (sampleTm 0 2)).map Tm.minutes
      = some 416 := by
  decide

/-- C14, amended: with a single valid marker dated strictly between December
15 and January 15 (the other slot absent) and a January anchor that is the
December anchor plus 60 minutes for a marker in slot 0, minus 60 minutes for
one in slot 1, the estimate on a day of the marker's month from December 15
through January 15 is the December anchor's time before the marker date and
the January anchor's time from the marker date on.  Two such days on the same
side of the marker give the same minutes; two on either side differ by 60. -/
theorem dst_compensation_is_a_step (dst : Fin 2 → DayTimePoint)
    (monthly : Fin 12 → DayTimePoint) (i : Fin 2) (p q : Tm)
    (hother : ∀ j, j ≠ i → absentMarker (dst j))
    (hvalid : validMarker (dst i))
    (hbetween : strictlyBetweenAnchors (dst i) 11 0)
    (hsign : (monthly 0).minutes =
      (monthly 11).minutes + (if i = 0 then 60 else -60))
    (hpm : p.tm_mon = (dst i).month - 1) (hqm : q.tm_mon = (dst i).month - 1)
    (hp : inInterval 11 p.tm_mon p.tm_mday) (hq : inInterval 11 q.tm_mon q.tm_mday) :
    ∃ rp rq : Tm,
      housealmanac_estimate dst monthly p = some rp ∧
      housealmanac_estimate dst monthly q = some rq ∧
      rp.minutes =
        (if housealmanac_before (dst i) p.tm_mon p.tm_mday then (monthly 11).minutes
         else (monthly 0).minutes) ∧
      rq.minutes =
        (if housealmanac_before (dst i) q.tm_mon q.tm_mday then (monthly 11).minutes
         else (monthly 0).minutes) ∧
      (housealmanac_before (dst i) p.tm_mon p.tm_mday =
          housealmanac_before (dst i) q.tm_mon q.tm_mday →
        rp.minutes = rq.minutes) ∧
      (housealmanac_before (dst i) p.tm_mon p.tm_mday ≠
          housealmanac_before (dst i) q.tm_mon q.tm_mday →
        |rp.minutes - rq.minutes| = 60) := by
  obtain ⟨rp, hrp, mp⟩ :=
    estimate_beside_marker dst monthly i p hother hvalid hbetween hsign hpm hp
  obtain ⟨rq, hrq, mq⟩ :=
    estimate_beside_marker dst monthly i q hother hvalid hbetween hsign hqm hq
  refine ⟨rp, rq, hrp, hrq, mp, mq, ?_, ?_⟩
  · intro h
    rw [mp, mq, h]
  · intro h
    rw [mp, mq, hsign]
    cases hbp : housealmanac_before (dst i) p.tm_mon p.tm_mday <;>
      cases hbq : housealmanac_before (dst i) q.tm_mon q.tm_mday <;>
      simp only [hbp, hbq, ne_eq, not_true_eq_false] at h ⊢
    · by_cases hi : i = 0
      · simp [hi]
      · simp [hi]
    · by_cases hi : i = 0
      · simp [hi]
      · simp [hi]

/-- Instance of the amended C14: the marker of January 5 and the table with
7:00 in December and 8:00 in January; January 4 gives 7:00 and January 5
gives 8:00. -/
theorem dst_compensation_is_a_step_witness :
    (∀ j, j ≠ (0 : Fin 2) → absentMarker (januaryMarker j)) ∧
    validMarker (januaryMarker 0) ∧ strictlyBetweenAnchors (januaryMarker 0) 11 0 ∧
    (stepTable 0).minutes = (stepTable 11).minutes + 60 ∧
    inInterval 11 (sampleTm 0 4).tm_mon (sampleTm 0 4).tm_mday ∧
    inInterval 11 (sampleTm 0 5).tm_mon (sampleTm 0 5).tm_mday ∧
    ∃ rp rq : Tm,
      housealmanac_estimate januaryMarker stepTable (sampleTm 0 4) = some rp ∧
      housealmanac_estimate januaryMarker stepTable (sampleTm 0 5) = some rq ∧
      rp.minutes = (stepTable 11).minutes ∧ rq.minutes = (stepTable 0).minutes ∧
      |rp.minutes - rq.minutes| = 60 := by
  obtain ⟨rp, rq, h1, h2, h3, h4, _, h6⟩ :=
    dst_compensation_is_a_step januaryMarker stepTable 0 (sampleTm 0 4) (sampleTm 0 5)
      (by decide) (by decide) (by decide) (by decide) rfl rfl (by decide) (by decide)
  exact ⟨by decide, by decide, by decide, by decide, by decide, by decide,
    rp, rq, h1, h2, h3, h4, h6 (by decide)⟩

theorem refresh_flag (cfg : Config) (s : AlmanacState) :
    (housealmanac_refresh cfg s).2.AlmanacIsConfigured =
      (s.AlmanacIsConfigured || (housealmanac_refresh cfg s).1.isNone) := by
  unfold housealmanac_refresh
  cases cfg.sunrise with
  | none => simp
  | some sunrises =>
    cases cfg.sunset with
    | none => simp only []; split_ifs <;> simp
    | some sunsets =>
      cases cfg.dst with
      | none => simp only []; split_ifs <;> simp
      | some dst => simp only []; split_ifs <;> simp

theorem run_flag (events : List Event) (s : AlmanacState) :
    (run events s).AlmanacIsConfigured =
      (s.AlmanacIsConfigured || refreshSucceeded events s) := by
  induction events generalizing s with
  | nil => simp [run, refreshSucceeded]
  | cons e rest ih =>
    have hrun : run (e :: rest) s = run rest (step s e) := rfl
    rw [hrun, ih]
    cases e with
    | config update =>
      cases update with
      | none => simp [refreshSucceeded, step, housealmanac_config_listener]
      | some cfg =>
        simp only [refreshSucceeded, step, housealmanac_config_listener, refresh_flag,
          Bool.or_assoc]
    | today env => simp [refreshSucceeded, step]
    | tonight env => simp [refreshSucceeded, step]
    | selftest env => simp [refreshSucceeded, step]

/-- C11: after any sequence of events from process start in which no call of
`housealmanac_refresh` returned success, the configured flag is false and the
three queries reply `echttp_error (500, "Service initializing")` with an empty
body; that reply is the same for every table and every clock, so nothing of
the estimator enters it; and after any sequence of events the flag is true
only if some refresh returned success. -/
theorem not_configured_gate (events : List Event) (env : Env)
    (hnone : refreshSucceeded events AlmanacState.initial = false) :
    (run events AlmanacState.initial).AlmanacIsConfigured = false ∧
    housealmanac_today (run events AlmanacState.initial) env = some notConfiguredReply ∧
    housealmanac_tonight (run events AlmanacState.initial) env = some notConfiguredReply ∧
    housealmanac_selftest (run events AlmanacState.initial) env
      = some notConfiguredReply ∧
    notConfiguredReply = ⟨some (500, "Service initializing"), Body.empty⟩ ∧
    (∀ (db : AlmanacData) (env2 : Env),
      housealmanac_today ⟨db, false⟩ env2 = some notConfiguredReply ∧
      housealmanac_tonight ⟨db, false⟩ env2 = some notConfiguredReply ∧
      housealmanac_selftest ⟨db, false⟩ env2 = some notConfiguredReply) ∧
    (∀ events2 : List Event,
      (run events2 AlmanacState.initial).AlmanacIsConfigured = true →
      refreshSucceeded events2 AlmanacState.initial = true) := by
  have hflag : (run events AlmanacState.initial).AlmanacIsConfigured = false := by
    rw [run_flag, hnone]
    rfl
  refine ⟨hflag, ?_, ?_, ?_, rfl, ?_, ?_⟩
  · simp [housealmanac_today, hflag]
  · simp [housealmanac_tonight, hflag]
  · simp [housealmanac_selftest, hflag]
  · intro db env2
    exact ⟨by simp [housealmanac_today], by simp [housealmanac_tonight],
      by simp [housealmanac_selftest]⟩
  · intro events2 h
    rw [run_flag] at h
    simpa [AlmanacState.initial] using h

/-- Instance of C11: a configuration that could not be read, a refresh that
fails on eleven sunrises and a query leave the service unconfigured. -/
theorem not_configured_gate_witness :
    refreshSucceeded
      [Event.config none, Event.config (some shortSunriseConfig), Event.today sampleEnv]
      AlmanacState.initial = false ∧
    housealmanac_tonight
      (run [Event.config none, Event.config (some shortSunriseConfig),
        Event.today sampleEnv] AlmanacState.initial) sampleEnv
      = some ⟨some (500, "Service initializing"), Body.empty⟩ :=
  ⟨by decide,
   (not_configured_gate
      [Event.config none, Event.config (some shortSunriseConfig), Event.today sampleEnv]
      sampleEnv (by decide)).2.2.1⟩

theorem estimate_some (dst : Fin 2 → DayTimePoint)
    (monthly : Fin 12 → DayTimePoint) (now : Tm) (m : Fin 12)
    (hmon : now.tm_mon = (m.val : Int)) :
    ∃ result : Tm, housealmanac_estimate dst monthly now = some result := by
  obtain ⟨c1, hc1⟩ := bracket_m1c_fin m now.tm_mon now.tm_mday hmon
  obtain ⟨c2, hc2⟩ := bracket_m2c_fin m now.tm_mon now.tm_mday hmon
  by_cases hday : now.tm_mday = 15
  · exact ⟨_, exact_anchor_lemma dst monthly now m hmon hday⟩
  · exact ⟨_, estimate_eq_regression dst monthly now c1 c2 hday hc1 hc2⟩

theorem estimate_of_date (dst : Fin 2 → DayTimePoint)
    (monthly : Fin 12 → DayTimePoint) (now : Tm) :
    housealmanac_estimate dst monthly now =
      (estimatedTime dst monthly now.tm_mon now.tm_mday).map fun hm =>
        { now with tm_sec := 0, tm_hour := hm.1, tm_min := hm.2 } := by
  unfold estimatedTime housealmanac_estimate
  dsimp only
  split_ifs
  · cases index monthly now.tm_mon <;> rfl
  · cases index monthly (bracket now.tm_mon now.tm_mday).m1c with
    | none => rfl
    | some e1 =>
      cases index monthly (bracket now.tm_mon now.tm_mday).m2c <;> rfl

theorem estimate_on_date (dst : Fin 2 → DayTimePoint)
    (monthly : Fin 12 → DayTimePoint) (now : Tm) (m : Fin 12)
    (hmon : now.tm_mon = (m.val : Int)) :
    ∃ hour minute : Int,
      estimatedTime dst monthly now.tm_mon now.tm_mday = some (hour, minute) ∧
      housealmanac_estimate dst monthly now =
        some { now with tm_sec := 0, tm_hour := hour, tm_min := minute } := by
  obtain ⟨r, hr⟩ := estimate_some dst monthly now m hmon
  have h := estimate_of_date dst monthly now
  rw [hr] at h
  cases ht : estimatedTime dst monthly now.tm_mon now.tm_mday with
  | none => rw [ht] at h; cases h
  | some hm =>
    refine ⟨hm.1, hm.2, rfl, ?_⟩
    rw [estimate_of_date, ht]
    rfl

theorem selftestDays_spec (dst : Fin 2 → DayTimePoint)
    (monthly : Fin 12 → DayTimePoint) (m : Fin 12) (days : List Int) (today : Tm)
    (array : List String) (hmon : today.tm_mon = (m.val : Int)) :
    ∃ (last : Tm) (out : List String),
      selftestDays dst monthly days (today, array) = some (last, array ++ out) ∧
      last.tm_mon = (m.val : Int) ∧
      List.Forall₂ (entryOf dst monthly) (days.map fun d => ((m.val : Int), d)) out := by
  induction days generalizing today array with
  | nil => exact ⟨today, [], by simp [selftestDays], hmon, List.Forall₂.nil⟩
  | cons day rest ih =>
    obtain ⟨hour, minute, ht, he⟩ :=
      estimate_on_date dst monthly { today with tm_mday := day } m hmon
    obtain ⟨last, out, hl, hlm, hf⟩ :=
      ih { today with tm_mday := day, tm_sec := 0, tm_hour := hour, tm_min := minute }
        (housealmanac_add_datetime array
          { today with tm_mday := day, tm_sec := 0, tm_hour := hour, tm_min := minute })
        hmon
    refine ⟨last, datetimeString ((m.val : Int) + 1) day hour minute :: out, ?_, hlm, ?_⟩
    · unfold selftestDays
      rw [he, Option.some_bind]
      rw [hl]
      simp [housealmanac_add_datetime, hmon]
    · rw [List.map_cons]
      refine List.Forall₂.cons ⟨hour, minute, ?_, rfl⟩ hf
      have e1 : ({ today with tm_mday := day } : Tm).tm_mon = (m.val : Int) := hmon
      rw [e1] at ht
      exact ht

theorem selftestMonths_spec (dst : Fin 2 → DayTimePoint)
    (monthly : Fin 12 → DayTimePoint) (months : List (Fin 12)) (today : Tm)
    (array : List String) :
    ∃ (last : Tm) (out : List String),
      selftestMonths dst monthly months (today, array) = some (last, array ++ out) ∧
      List.Forall₂ (entryOf dst monthly)
        (months.flatMap fun month =>
          (List.range (DaysPerMonth month).toNat).map
            fun k => ((month.val : Int), (k : Int) + 1)) out := by
  induction months generalizing today array with
  | nil => exact ⟨today, [], by simp [selftestMonths], List.Forall₂.nil⟩
  | cons month rest ih =>
    obtain ⟨mid, out1, h1, _, f1⟩ :=
      selftestDays_spec dst monthly month (loopDays (DaysPerMonth month))
        { today with tm_mon := (month.val : Int) } array rfl
    obtain ⟨last, out2, h2, f2⟩ := ih mid (array ++ out1)
    refine ⟨last, out1 ++ out2, ?_, ?_⟩
    · unfold selftestMonths
      rw [h1, Option.some_bind, h2, List.append_assoc]
    · rw [List.flatMap_cons]
      refine List.rel_append ?_ f2
      have e : (loopDays (DaysPerMonth month)).map (fun d => ((month.val : Int), d)) =
          (List.range (DaysPerMonth month).toNat).map
            fun k => ((month.val : Int), (k : Int) + 1) := by
        simp [loopDays]
      rw [← e]
      exact f1

theorem chain_of_datesIncrease (l : List (Int × Int)) (h : datesIncrease l = true) :
    List.Chain' dateBefore l := by
  induction l with
  | nil => exact List.chain'_nil
  | cons a rest ih =>
    cases rest with
    | nil => exact List.chain'_singleton a
    | cons b rest =>
      simp only [datesIncrease, Bool.and_eq_true, decide_eq_true_eq] at h
      exact List.chain'_cons.mpr ⟨h.1, ih h.2⟩

set_option maxRecDepth 100000 in
theorem yearDates_length : yearDates.length = 365 := by
  decide

set_option maxRecDepth 100000 in
theorem yearDates_increase : datesIncrease yearDates = true := by
  decide

set_option maxRecDepth 100000 in
theorem yearDates_ends :
    yearDates.head? = some (0, 1) ∧ yearDates.getLast? = some (11, 31) := by
  decide

/-- C12: on a configured table `housealmanac_selftest` returns a document
whose sunrise array and sunset array hold one entry per date of `yearDates`,
in that order: the text "MM/DD HH:MM" of the queried month plus one and day
with the hour and minute the estimator gives for that date.  `yearDates` has
365 dates in increasing calendar order, from (0, 1) to (11, 31), so each array
has exactly 365 entries. -/
theorem selftest_enumeration (s : AlmanacState) (env : Env)
    (hconf : s.AlmanacIsConfigured = true) :
    ∃ sunrise sunset : List String,
      housealmanac_selftest s env =
        some ⟨none, Body.selftest env.host env.proxy env.time 1 sunrise sunset⟩ ∧
      List.Forall₂ (entryOf s.AlmanacDb.dst s.AlmanacDb.sunrises) yearDates sunrise ∧
      List.Forall₂ (entryOf s.AlmanacDb.dst s.AlmanacDb.sunsets) yearDates sunset ∧
      sunrise.length = 365 ∧ sunset.length = 365 ∧
      yearDates.length = 365 ∧ List.Chain' dateBefore yearDates ∧
      yearDates.head? = some (0, 1) ∧ yearDates.getLast? = some (11, 31) := by
  obtain ⟨t1, out1, h1, f1⟩ :=
    selftestMonths_spec s.AlmanacDb.dst s.AlmanacDb.sunrises (List.finRange 12)
      (env.localtime env.time) []
  obtain ⟨t2, out2, h2, f2⟩ :=
    selftestMonths_spec s.AlmanacDb.dst s.AlmanacDb.sunsets (List.finRange 12) t1 []
  have hlen : yearDates.length = 365 := yearDates_length
  refine ⟨out1, out2, ?_, f1, f2, ?_, ?_, hlen, chain_of_datesIncrease _ yearDates_increase,
    yearDates_ends.1, yearDates_ends.2⟩
  · unfold housealmanac_selftest
    simp only [hconf, Bool.not_true, Bool.false_eq_true, if_false]
    rw [h1, Option.some_bind]
    dsimp only
    rw [h2]
    rfl
  · rw [← List.Forall₂.length_eq f1]
    exact hlen
  · rw [← List.Forall₂.length_eq f2]
    exact hlen

set_option maxRecDepth 100000 in
theorem datetimeString_sample : datetimeString ((0, 1).1 + 1) (0, 1).2 7 24 = "01/01 07:24" := by
  decide

/-- Instance of C12: the configured sample state gives two arrays of 365
entries, and the first sunrise entry is "01/01 07:24". -/
theorem selftest_enumeration_witness :
    sampleState.AlmanacIsConfigured = true ∧
    ∃ sunrise sunset : List String,
      housealmanac_selftest sampleState sampleEnv =
        some ⟨none, Body.selftest "house" "portal" 40000 1 sunrise sunset⟩ ∧
      sunrise.length = 365 ∧ sunset.length = 365 ∧
      sunrise.head? = some "01/01 07:24" := by
  obtain ⟨sunrise, sunset, h, f1, _, l1, l2, _, _, hd, _⟩ :=
    selftest_enumeration sampleState sampleEnv rfl
  refine ⟨rfl, sunrise, sunset, h, l1, l2, ?_⟩
  cases hy : yearDates with
  | nil => rw [hy] at hd; cases hd
  | cons d rest =>
    rw [hy] at hd f1
    cases f1 with
    | cons he _ =>
      obtain ⟨hour, minute, ht, hs⟩ := he
      have hd0 : d = (0, 1) := by
        simpa using hd
      subst hd0
      have hv : estimatedTime sampleState.AlmanacDb.dst sampleState.AlmanacDb.sunrises
          0 1 = some (7, 24) := by decide
      rw [hv] at ht
      cases ht
      rw [hs, List.head?_cons]
      exact congrArg some datetimeString_sample

theorem estimate_in_range (dst : Fin 2 → DayTimePoint)
    (monthly : Fin 12 → DayTimePoint) (now : Tm)
    (h : 0 ≤ now.tm_mon ∧ now.tm_mon ≤ 11) :
    ∃ result : Tm, housealmanac_estimate dst monthly now = some result :=
  estimate_some dst monthly now ⟨now.tm_mon.toNat, by omega⟩ (by simp only []; omega)

theorem estimate_after_estimate (dst : Fin 2 → DayTimePoint)
    (first monthly : Fin 12 → DayTimePoint) (now r : Tm)
    (h : housealmanac_estimate dst first now = some r) :
    housealmanac_estimate dst monthly r = housealmanac_estimate dst monthly now := by
  rw [estimate_of_date dst first now] at h
  cases ht : estimatedTime dst first now.tm_mon now.tm_mday with
  | none => rw [ht] at h; cases h
  | some hm =>
    rw [ht] at h
    cases h
    rw [estimate_of_date dst monthly now, estimate_of_date dst monthly _]

/-- C13: on a configured table, with S the timestamp of the sunrise estimated
for the local date of now, `housealmanac_tonight` returns, when S < now, the
timestamp of the sunset estimated at the `struct tm` of today (as `mktime`
left it, which is today's date whenever `mktime` finds nothing to normalise)
and the timestamp of the sunrise estimated for the local date of now + 24h;
otherwise the timestamp of the sunset estimated for the local date of
now - 24h, and S. -/
theorem tonight_selection (s : AlmanacState) (env : Env)
    (hconf : s.AlmanacIsConfigured = true) (hmonths : env.calendarMonths) :
    ∃ (today : Tm) (S : Int),
      housealmanac_estimate s.AlmanacDb.dst s.AlmanacDb.sunrises
        (env.localtime env.time) = some today ∧
      S = (env.mktime today).1 ∧
      estimateTimestamp env s.AlmanacDb.dst s.AlmanacDb.sunrises
        (env.localtime env.time) = some S ∧
      (S < env.time →
        ∃ sunset sunrise : Int,
          estimateTimestamp env s.AlmanacDb.dst s.AlmanacDb.sunsets
            (env.mktime today).2 = some sunset ∧
          estimateTimestamp env s.AlmanacDb.dst s.AlmanacDb.sunrises
            (env.localtime (env.time + 24 * 60 * 60)) = some sunrise ∧
          housealmanac_tonight s env =
            some ⟨none, Body.almanac env.host env.proxy env.time env.timezone 1 env.time
              [("sunset", sunset), ("sunrise", sunrise)]⟩) ∧
      (¬ S < env.time →
        ∃ sunset : Int,
          estimateTimestamp env s.AlmanacDb.dst s.AlmanacDb.sunsets
            (env.localtime (env.time - 24 * 60 * 60)) = some sunset ∧
          housealmanac_tonight s env =
            some ⟨none, Body.almanac env.host env.proxy env.time env.timezone 1 env.time
              [("sunset", sunset), ("sunrise", S)]⟩) ∧
      ((env.mktime today).2 = today →
        estimateTimestamp env s.AlmanacDb.dst s.AlmanacDb.sunsets (env.mktime today).2 =
          estimateTimestamp env s.AlmanacDb.dst s.AlmanacDb.sunsets
            (env.localtime env.time)) := by
  obtain ⟨today, h1⟩ := estimate_in_range s.AlmanacDb.dst s.AlmanacDb.sunrises
    (env.localtime env.time) (hmonths.1 _)
  refine ⟨today, (env.mktime today).1, h1, rfl, ?_, ?_, ?_, ?_⟩
  · simp [estimateTimestamp, h1]
  · intro hlt
    obtain ⟨r2, h2⟩ := estimate_in_range s.AlmanacDb.dst s.AlmanacDb.sunsets
      (env.mktime today).2 (hmonths.2 _)
    obtain ⟨r3, h3⟩ := estimate_in_range s.AlmanacDb.dst s.AlmanacDb.sunrises
      (env.localtime (env.time + 24 * 60 * 60)) (hmonths.1 _)
    refine ⟨(env.mktime r2).1, (env.mktime r3).1, ?_, ?_, ?_⟩
    · simp [estimateTimestamp, h2]
    · unfold estimateTimestamp
      rw [h3]
      rfl
    · unfold housealmanac_tonight
      simp only [hconf, Bool.not_true, Bool.false_eq_true, if_false, h1,
        Option.some_bind, if_pos hlt, h2, h3, Option.map_some']
  · intro hge
    obtain ⟨r2, h2⟩ := estimate_in_range s.AlmanacDb.dst s.AlmanacDb.sunsets
      (env.localtime (env.time - 24 * 60 * 60)) (hmonths.1 _)
    refine ⟨(env.mktime r2).1, ?_, ?_⟩
    · unfold estimateTimestamp
      rw [h2]
      rfl
    · unfold housealmanac_tonight
      simp only [hconf, Bool.not_true, Bool.false_eq_true, if_false, h1,
        Option.some_bind, if_neg hge, h2, Option.map_some']
  · intro hsame
    unfold estimateTimestamp
    rw [hsame, estimate_after_estimate _ _ _ _ _ h1]

theorem sampleEnv_calendarMonths : sampleEnv.calendarMonths := by
  refine ⟨fun _ => ?_, fun t => ?_⟩
  · show (0 : Int) ≤ 0 ∧ (0 : Int) ≤ 11
    omega
  · show 0 ≤ t.tm_mon % 12 ∧ t.tm_mon % 12 ≤ 11
    omega

/-- Instance of C13: at 11:06:40 of January 1 the sunrise of 7:24 has passed,
and the reply holds today's sunset of 17:05 and tomorrow's sunrise of 7:24
(the sample clock gives January 1 for every time). -/
theorem tonight_selection_witness :
    sampleState.AlmanacIsConfigured = true ∧ sampleEnv.calendarMonths ∧
    housealmanac_tonight sampleState sampleEnv =
      some ⟨none, Body.almanac "house" "portal" 40000 "Europe/Paris" 1 40000
        [("sunset", 61500), ("sunrise", 26640)]⟩ := by
  obtain ⟨today, S, h1, hS, _, hlt, _, _⟩ :=
    tonight_selection sampleState sampleEnv rfl sampleEnv_calendarMonths
  have e1 : housealmanac_estimate sampleState.AlmanacDb.dst sampleState.AlmanacDb.sunrises
      (sampleEnv.localtime sampleEnv.time) =
      some { sampleTm 0 1 with tm_sec := 0, tm_hour := 7, tm_min := 24 } := by decide
  rw [e1] at h1
  cases h1
  have hSv : S = 26640 := by rw [hS]; decide
  subst hSv
  obtain ⟨sunset, sunrise, a, b, c⟩ := hlt (by decide)
  have a1 : estimateTimestamp sampleEnv sampleState.AlmanacDb.dst
      sampleState.AlmanacDb.sunsets
      (sampleEnv.mktime { sampleTm 0 1 with tm_sec := 0, tm_hour := 7, tm_min := 24 }).2
      = some 61500 := by decide
  have b1 : estimateTimestamp sampleEnv sampleState.AlmanacDb.dst
      sampleState.AlmanacDb.sunrises (sampleEnv.localtime (sampleEnv.time + 24 * 60 * 60))
      = some 26640 := by decide
  rw [a1] at a
  rw [b1] at b
  cases a
  cases b
  exact ⟨rfl, sampleEnv_calendarMonths, c⟩

end HouseAlmanac
